import Mathlib

/-!
# SnapSort — Metadata Normalization & Library Placement Engine: a verification development

Shallow embedding of the core of the SnapSort repository (TypeScript/SvelteKit) in Lean 4:

* `src/lib/server/exiftool-wrapper.ts` — the zod read schema, the property resolver
  (`convertExifToFileData` / `ExifReadableDataSimplifiedSchema`), the EXIF date parser
  (`parseExifDateTime`), the timezone heuristic (`getTimezoneFromOffset`), and the write-back
  document builder (`convertFileToExifData` / `ExifWriteableDataSchema`).
* `src/lib/server/file-manager.ts` — the library path planner (`remapFilePaths`) and
  the queue cleanup (`deleteQueuedFiles`).
* `src/routes/+page.server.ts` — the commit orchestration (`actions.commitFiles`,
  `moveQueuedFilesToLibrary`).
* `src/lib/server/db/index.ts` — `database.keywords.getFolderLabels`.

Modelling conventions:
* JS `Date` values (absolute instants) are embedded as `Int` — seconds since the Unix epoch.
* Timezones are embedded as fixed UTC offsets in minutes (`Int`).  Luxon renders instants
  through the IANA database with DST; every claim below concerns offset arithmetic only, so a
  fixed offset per zone is faithful for their scope.  The process-local zone used implicitly by
  `DateTime.fromJSDate` / `DateTime.fromFormat` (no zone argument) is threaded through as an
  explicit `sysOff` parameter.
* JS numbers appearing in GPS metadata are embedded as `ℚ` (the claims involve only exact
  comparisons with `0` and sign tests, which are exact on the values exiftool emits).
* Strings are Lean `String`s; where the embedding must parse or render digit sequences it works
  on the underlying `List Char`.
-/

namespace SnapSort

/-! ## Decimal rendering (JS `Number.prototype.toString` for naturals, `String.padStart`) -/

/-- The character for a decimal digit, as produced by JS `toString`. -/
def digitCh (d : Nat) : Char :=
  match d with
  | 0 => '0' | 1 => '1' | 2 => '2' | 3 => '3' | 4 => '4'
  | 5 => '5' | 6 => '6' | 7 => '7' | 8 => '8' | _ => '9'

/-- Fuelled worker for `natChars` (structural recursion, so that concrete strings reduce in
the kernel). -/
def natCharsAux : Nat → Nat → List Char
  | 0, _ => []
  | f + 1, n => if n < 10 then [digitCh n] else natCharsAux f (n / 10) ++ [digitCh (n % 10)]

/-- Decimal digit list of a natural number, most significant first
(the digit sequence JS `n.toString()` produces). -/
def natChars (n : Nat) : List Char := natCharsAux (n + 1) n

theorem natCharsAux_congr : ∀ f1 f2 n, n < f1 → n < f2 → natCharsAux f1 n = natCharsAux f2 n := by
  intro f1
  induction f1 with
  | zero => omega
  | succ f1 ih =>
    intro f2 n h1 h2
    cases f2 with
    | zero => omega
    | succ f2 =>
      simp only [natCharsAux]
      by_cases h10 : n < 10
      · simp [h10]
      · rw [if_neg h10, if_neg h10, ih f2 (n / 10) (by omega) (by omega)]

theorem natCharsAux_eq_natChars {f n : Nat} (h : n < f) : natCharsAux f n = natChars n :=
  natCharsAux_congr f (n + 1) n h (by omega)

theorem natChars_low {n : Nat} (h : n < 10) : natChars n = [digitCh n] := by
  simp [natChars, natCharsAux, h]

theorem natChars_high {n : Nat} (h : ¬ n < 10) :
    natChars n = natChars (n / 10) ++ [digitCh (n % 10)] := by
  unfold natChars
  conv_lhs => simp only [natCharsAux]
  rw [if_neg h]
  congr 1
  exact natCharsAux_eq_natChars (show n / 10 < n by omega)

/-- JS `n.toString().padStart(k, '0')` as a character list. -/
def padNat (k n : Nat) : List Char :=
  List.replicate (k - (natChars n).length) '0' ++ natChars n

/-- Numeric value of a digit character (`c.toNat - 48`). -/
def chDigit (c : Char) : Nat := c.toNat - 48

/-- Left fold evaluating a digit list back to a natural number. -/
def evalChars (cs : List Char) : Nat := cs.foldl (fun acc c => acc * 10 + chDigit c) 0

theorem chDigit_digitCh {d : Nat} (h : d < 10) : chDigit (digitCh d) = d := by
  interval_cases d <;> rfl

theorem evalChars_eq (cs : List Char) (acc : Nat) :
    List.foldl (fun acc c => acc * 10 + chDigit c) acc cs = acc * 10 ^ cs.length + evalChars cs := by
  induction cs generalizing acc with
  | nil => simp [evalChars]
  | cons d ds ih =>
    simp only [List.foldl_cons, List.length_cons, evalChars]
    rw [ih, ih]
    ring

theorem evalChars_cons (c : Char) (cs : List Char) :
    evalChars (c :: cs) = chDigit c * 10 ^ cs.length + evalChars cs := by
  have h := evalChars_eq cs (chDigit c)
  simp only [evalChars, List.foldl_cons] at h ⊢
  rw [show (0 : Nat) * 10 + chDigit c = chDigit c by ring, h]

theorem evalChars_append (l r : List Char) :
    evalChars (l ++ r) = evalChars l * 10 ^ r.length + evalChars r := by
  induction l with
  | nil => simp [evalChars]
  | cons c cs ih =>
    rw [List.cons_append, evalChars_cons, evalChars_cons, ih, List.length_append]
    ring

theorem evalChars_natChars (n : Nat) : evalChars (natChars n) = n := by
  induction n using Nat.strong_induction_on with
  | _ n ih =>
    by_cases h : n < 10
    · rw [natChars_low h]
      simp [evalChars, chDigit_digitCh h]
    · rw [natChars_high h]
      rw [evalChars_append, ih (n / 10) (Nat.div_lt_self (by omega) (by omega))]
      simp [evalChars, chDigit_digitCh (Nat.mod_lt n (by omega))]
      omega

theorem natChars_length_le {n k : Nat} (h : n < 10 ^ k) (hk : 1 ≤ k) :
    (natChars n).length ≤ k := by
  induction k generalizing n with
  | zero => omega
  | succ k ih =>
    by_cases h10 : n < 10
    · rw [natChars_low h10]; simp only [List.length_cons, List.length_nil]; omega
    · rw [natChars_high h10]
      have hk1 : 1 ≤ k := by
        by_contra hc
        have hz : k = 0 := by omega
        subst hz; simp at h; omega
      have hdiv : n / 10 < 10 ^ k := by
        rw [pow_succ] at h
        omega
      have := ih hdiv hk1
      simp only [List.length_append, List.length_cons, List.length_nil]
      omega

theorem padNat_length {k n : Nat} (h : n < 10 ^ k) (hk : 1 ≤ k) :
    (padNat k n).length = k := by
  have := natChars_length_le h hk
  simp only [padNat, List.length_append, List.length_replicate]
  omega

theorem evalChars_replicate_zero (j : Nat) (r : List Char) :
    evalChars (List.replicate j '0' ++ r) = evalChars r := by
  induction j with
  | zero => simp
  | succ j ih =>
    rw [List.replicate_succ, List.cons_append, evalChars_cons]
    have h0 : chDigit '0' = 0 := rfl
    rw [h0, ih]
    ring

theorem evalChars_padNat (k n : Nat) : evalChars (padNat k n) = n := by
  rw [padNat, evalChars_replicate_zero, evalChars_natChars]

/-- Zero-padded rendering is injective: two numbers with the same padded digit string agree. -/
theorem padNat_inj {k a b : Nat} (h : padNat k a = padNat k b) : a = b := by
  have := congrArg evalChars h
  rwa [evalChars_padNat, evalChars_padNat] at this

/-! ## Proleptic Gregorian calendar arithmetic

Luxon converts between instants and wall-clock fields through the proleptic Gregorian
calendar; this is the standard days/civil conversion (Howard Hinnant's algorithm), which the
embedding uses wherever the source calls `DateTime.toFormat` / `DateTime.fromFormat`. -/

/-- A wall-clock calendar date. -/
structure CivilDate where
  year : Int
  month : Nat
  day : Nat
deriving DecidableEq

/-- Day of the 400-year era, `[0, 146096]`. -/
def cfdDoe (z0 : Int) : Nat := ((z0 + 719468).emod 146097).toNat

/-- Year of the era from the day of the era, `[0, 399]`. -/
def cfdYoe (doe : Nat) : Nat := (doe - doe / 1460 + doe / 36524 - doe / 146096) / 365

/-- Day of the (March-based) year, `[0, 365]`. -/
def cfdDoy (doe : Nat) : Nat := doe - (365 * cfdYoe doe + cfdYoe doe / 4 - cfdYoe doe / 100)

/-- March-based month index, `[0, 11]`. -/
def cfdMp (doe : Nat) : Nat := (5 * cfdDoy doe + 2) / 153

/-- Civil date from a count of days since 1970-01-01. -/
def civilFromDays (z0 : Int) : CivilDate :=
  let doe := cfdDoe z0
  let mp := cfdMp doe
  let m : Nat := if mp < 10 then mp + 3 else mp - 9
  ⟨(cfdYoe doe : Int) + (z0 + 719468).ediv 146097 * 400 + (if m ≤ 2 then 1 else 0),
   m, cfdDoy doe - (153 * mp + 2) / 5 + 1⟩

/-- Days since 1970-01-01 of a civil date. -/
def daysFromCivil (y0 : Int) (m d : Nat) : Int :=
  let y := if m ≤ 2 then y0 - 1 else y0
  let era : Int := y.ediv 400
  let yoe : Nat := (y.emod 400).toNat
  let mp : Nat := if 2 < m then m - 3 else m + 9
  let doy : Nat := (153 * mp + 2) / 5 + d - 1
  let doe : Nat := yoe * 365 + yoe / 4 - yoe / 100 + doy
  era * 146097 + (doe : Int) - 719468

theorem cfdDoe_le (z0 : Int) : cfdDoe z0 ≤ 146096 := by
  have h1 : 0 ≤ (z0 + 719468).emod 146097 := Int.emod_nonneg _ (by norm_num)
  have h2 : (z0 + 719468).emod 146097 < 146097 := Int.emod_lt_of_pos _ (by norm_num)
  unfold cfdDoe
  omega

theorem cfdDoy_le {doe : Nat} (h : doe ≤ 146096) : cfdDoy doe ≤ 600 := by
  unfold cfdDoy cfdYoe
  omega

/-- The rendered month and day of `civilFromDays` always fit in two digits (all that the
format-injectivity argument needs). -/
theorem civilFromDays_field_bounds (z0 : Int) :
    1 ≤ (civilFromDays z0).month ∧ (civilFromDays z0).month < 100 ∧
    1 ≤ (civilFromDays z0).day ∧ (civilFromDays z0).day < 100 := by
  have hdoe := cfdDoe_le z0
  have hdoy := cfdDoy_le hdoe
  simp only [civilFromDays]
  have hmp : cfdMp (cfdDoe z0) = (5 * cfdDoy (cfdDoe z0) + 2) / 153 := rfl
  constructor
  · split <;> omega
  constructor
  · split <;> omega
  constructor
  · omega
  · omega

/-- Leap year test of the proleptic Gregorian calendar. -/
def isLeapYear (y : Int) : Bool := y % 4 = 0 && (y % 100 ≠ 0 || y % 400 = 0)

/-- Number of days in a month (0 for an out-of-range month, which luxon rejects). -/
def daysInMonth (y : Int) (m : Nat) : Nat :=
  match m with
  | 1 => 31 | 3 => 31 | 5 => 31 | 7 => 31 | 8 => 31 | 10 => 31 | 12 => 31
  | 4 => 30 | 6 => 30 | 9 => 30 | 11 => 30
  | 2 => if isLeapYear y then 29 else 28
  | _ => 0

/-- The civil date an instant `t` (epoch seconds) falls on when rendered at a fixed UTC
offset of `offMin` minutes (the local calendar date). -/
def civilFromInstant (offMin t : Int) : CivilDate :=
  civilFromDays ((t + offMin * 60).ediv 86400)

/-! ## Luxon format strings used by `remapFilePaths`

`file-manager.ts` renders dates with `toFormat('yyyy/MM - MMMM/dd')` (the date-group
subdirectory) and `toFormat('yyyyMMdd')` (the filename date component). -/

/-- English month name (luxon `MMMM`, en locale); empty for an out-of-range month. -/
def monthChars (m : Nat) : List Char :=
  match m with
  | 1 => "January".data  | 2 => "February".data | 3 => "March".data
  | 4 => "April".data    | 5 => "May".data      | 6 => "June".data
  | 7 => "July".data     | 8 => "August".data   | 9 => "September".data
  | 10 => "October".data | 11 => "November".data | 12 => "December".data
  | _ => []

/-- `toFormat('yyyy/MM - MMMM/dd')` on a civil date.  Luxon zero-pads `yyyy` to 4 and
`MM`/`dd` to 2 digits; negative years are outside the modelled scope (`Int.toNat`). -/
def dateGroupChars (c : CivilDate) : List Char :=
  padNat 4 c.year.toNat ++ ('/' :: (padNat 2 c.month
    ++ (' ' :: '-' :: ' ' :: (monthChars c.month ++ ('/' :: padNat 2 c.day)))))

/-- The date-group key string of an instant at offset `offMin` (what the source computes as
`DateTime.fromJSDate(file.captureDateTime).toFormat('yyyy/MM - MMMM/dd')`). -/
def dateGroupKey (offMin t : Int) : String := ⟨dateGroupChars (civilFromInstant offMin t)⟩

/-- `toFormat('yyyyMMdd')` on a civil date. -/
def ymdChars (c : CivilDate) : List Char :=
  padNat 4 c.year.toNat ++ (padNat 2 c.month ++ padNat 2 c.day)

/-- The `YYYYMMDD` filename component of an instant at offset `offMin`. -/
def ymdKey (offMin t : Int) : String := ⟨ymdChars (civilFromInstant offMin t)⟩

/-- The date-group format is injective on dates with 4-digit years and in-range fields:
equal subdirectory strings force equal civil dates. -/
theorem dateGroupChars_inj {c1 c2 : CivilDate}
    (hy1 : 0 ≤ c1.year) (hy1u : c1.year < 10000) (hy2 : 0 ≤ c2.year) (hy2u : c2.year < 10000)
    (hm1 : c1.month < 100) (hm2 : c2.month < 100) (hd1 : c1.day < 100) (hd2 : c2.day < 100)
    (h : dateGroupChars c1 = dateGroupChars c2) : c1 = c2 := by
  have hy1n : c1.year.toNat < 10 ^ 4 := by omega
  have hy2n : c2.year.toNat < 10 ^ 4 := by omega
  have hlen4 : (padNat 4 c1.year.toNat).length = (padNat 4 c2.year.toNat).length := by
    rw [padNat_length hy1n (by norm_num), padNat_length hy2n (by norm_num)]
  unfold dateGroupChars at h
  obtain ⟨hyEq, h⟩ := List.append_inj h hlen4
  have hyear : c1.year = c2.year := by
    have := padNat_inj hyEq
    omega
  obtain ⟨-, h⟩ := List.cons_eq_cons.mp h
  have hlen2 : (padNat 2 c1.month).length = (padNat 2 c2.month).length := by
    rw [padNat_length (show c1.month < 10 ^ 2 by omega) (by norm_num),
        padNat_length (show c2.month < 10 ^ 2 by omega) (by norm_num)]
  obtain ⟨hmEq, h⟩ := List.append_inj h hlen2
  have hmonth : c1.month = c2.month := padNat_inj hmEq
  obtain ⟨-, h⟩ := List.cons_eq_cons.mp h
  obtain ⟨-, h⟩ := List.cons_eq_cons.mp h
  obtain ⟨-, h⟩ := List.cons_eq_cons.mp h
  rw [hmonth] at h
  obtain ⟨-, h⟩ := List.append_inj h rfl
  obtain ⟨-, h⟩ := List.cons_eq_cons.mp h
  have hday : c1.day = c2.day := padNat_inj h
  cases c1; cases c2
  simp_all

/-! ## `file-manager.ts` — the library path planner

Embedding of `remapFilePaths` (`src/lib/server/file-manager.ts:137-212`; the copy in the
route-level file manager is identical).  The source renders every date with
`DateTime.fromJSDate(file.captureDateTime)` — luxon's *process-local* zone, threaded here
as `sysOff` — and its input type `PathRemapFile` carries no timezone field. -/

/-- JS `String.prototype.startsWith`, on the character lists (kernel-reducible). -/
def strStartsWith (s pre : String) : Bool := pre.data.isPrefixOf s.data

/-- An entry of the path plan (`PathRemap`). -/
structure PathRemap where
  fileId : Nat
  sourcePath : String
  destinationPath : String
deriving DecidableEq

/-- A file eligible for the planner (`PathRemapFile`): `captureDateTime` is the capture
instant in epoch seconds. -/
structure PathRemapFile where
  id : Nat
  path : String
  captureDateTime : Int
  mimeType : String
  keywords : List String
deriving DecidableEq

/-- JS `array.filter(removeDuplicatesPredicate)` (`utility.ts`): keep the first occurrence
of each value. -/
def dedupFirst [DecidableEq α] (l : List α) : List α := go [] l where
  go (seen : List α) : List α → List α
    | [] => []
    | x :: xs => if x ∈ seen then go seen xs else x :: go (x :: seen) xs

/-- Node `path.extname`: the extension of the basename including the dot, `""` when there is
none or the basename is a dotfile. -/
def extnameOf (p : String) : String :=
  let base := p.data.foldl (fun acc c => if c = '/' then [] else acc ++ [c]) []
  match base.reverse.findIdx? (· = '.') with
  | none => ""
  | some i => if i + 1 = base.length then "" else ⟨base.drop (base.length - 1 - i)⟩

/-- Step 1 of `remapFilePaths`: the distinct `yyyy/MM - MMMM/dd` keys, in first-occurrence
order. -/
def subDirsOf (sysOff : Int) (files : List PathRemapFile) : List String :=
  dedupFirst (files.map (fun f => dateGroupKey sysOff f.captureDateTime))

/-- A date group (`fileGroupsBySubDir` entries). -/
structure FileGroup where
  subDir : String
  files : List PathRemapFile
deriving DecidableEq

/-- Step 2 of `remapFilePaths`: group the files by their target subdirectory. -/
def fileGroupsBySubDir (sysOff : Int) (files : List PathRemapFile) : List FileGroup :=
  (subDirsOf sysOff files).map (fun s =>
    ⟨s, files.filter (fun f => dateGroupKey sysOff f.captureDateTime == s)⟩)

/-- `sortedFolderLabels.findIndex((label) => file.keywords.includes(label))` — JS `findIndex`
returns `-1` when nothing matches. -/
def candidateLabelIdx (labels : List String) (f : PathRemapFile) : Int :=
  match labels.findIdx? (fun lab => f.keywords.contains lab) with
  | some i => (i : Int)
  | none => -1

/-- The `forEach` accumulation of `folderLabelIdx` over a group's files. -/
def groupFolderLabelIdx (labels : List String) (files : List PathRemapFile) : Int :=
  files.foldl (fun acc f =>
    if acc < candidateLabelIdx labels f then candidateLabelIdx labels f else acc) (-1)

/-- Step 3 of `remapFilePaths`: append the folder-label suffix to each group's
subdirectory.  (`labels.getD … ""` stands for the JS index access, which the `≠ -1` guard
keeps in range.) -/
def labelledSubDirGroups (sysOff : Int) (labels : List String) (files : List PathRemapFile) :
    List FileGroup :=
  (fileGroupsBySubDir sysOff files).map (fun g =>
    let idx := groupFolderLabelIdx labels g.files
    if idx = -1 then ⟨g.subDir, g.files⟩
    else ⟨g.subDir ++ " - " ++ labels.getD idx.toNat "", g.files⟩)

/-- The three filename type tags. -/
inductive FileTag | IMG | VID | EDT
deriving DecidableEq

def tagChars : FileTag → List Char
  | .IMG => "IMG".data
  | .VID => "VID".data
  | .EDT => "EDT".data

/-- The tag choice of `remapFilePaths`: `EDT` when the keywords contain the literal
`Edit`, else `IMG` for `image/*` MIME types, else `VID`. -/
def fileTag (f : PathRemapFile) : FileTag :=
  if f.keywords.contains "Edit" then .EDT
  else if strStartsWith f.mimeType "image/" then .IMG else .VID

/-- `TAG-YYYYMMDD-Index.ext`. -/
def newFileName (sysOff : Int) (f : PathRemapFile) (tag : FileTag) (idx : Nat) : String :=
  (⟨tagChars tag⟩ : String) ++ "-" ++ ymdKey sysOff f.captureDateTime ++ "-"
    ++ (⟨padNat 3 idx⟩ : String) ++ extnameOf f.path

/-- One counter per tag (`tagIndices` in the source). -/
def bumpTag (t : FileTag) (c : FileTag → Nat) : FileTag → Nat :=
  fun t2 => if t2 = t then c t2 + 1 else c t2

/-- Step 4 of `remapFilePaths` for one group: walk the group's files in order, drawing and
incrementing the chosen tag's counter. -/
def assignNames (sysOff : Int) (root subDir : String) :
    List PathRemapFile → (FileTag → Nat) → List PathRemap
  | [], _ => []
  | f :: fs, c =>
    { fileId := f.id, sourcePath := f.path,
      destinationPath := root ++ "/" ++ subDir ++ "/" ++ newFileName sysOff f (fileTag f) (c (fileTag f)) }
      :: assignNames sysOff root subDir fs (bumpTag (fileTag f) c)

/-- `remapFilePaths(files, newRootPath, sortedFolderLabels)`: the full path plan. -/
def remapFilePaths (sysOff : Int) (files : List PathRemapFile) (newRootPath : String)
    (sortedFolderLabels : List String) : List PathRemap :=
  (labelledSubDirGroups sysOff sortedFolderLabels files).flatMap
    (fun g => assignNames sysOff newRootPath g.subDir g.files (fun _ => 0))

theorem bump_count_eq (t t2 : FileTag) (c : FileTag → Nat) (x : Nat) :
    (if t2 = t then c t2 + 1 else c t2) + x = c t2 + (x + if (t == t2) = true then 1 else 0) := by
  by_cases h : t2 = t
  · subst h; simp; omega
  · have hb : (t == t2) = false := by
      simp only [beq_eq_false_iff_ne, ne_eq]
      exact fun hc => h hc.symm
    simp [h, hb]

/-- The counter walk of `assignNames`, characterised positionally: file `i` of a group gets,
for its tag, the initial counter plus the number of earlier same-tag files of the group. -/
theorem assignNames_eq_mapIdx (sysOff : Int) (root subDir : String)
    (files : List PathRemapFile) (c : FileTag → Nat) :
    assignNames sysOff root subDir files c
      = files.mapIdx (fun i f =>
          { fileId := f.id, sourcePath := f.path,
            destinationPath := root ++ "/" ++ subDir ++ "/"
              ++ newFileName sysOff f (fileTag f)
                  (c (fileTag f) + (files.take i).countP (fun f2 => fileTag f2 == fileTag f)) }) := by
  induction files generalizing c with
  | nil => rfl
  | cons f fs ih =>
    rw [assignNames, List.mapIdx_cons, ih (bumpTag (fileTag f) c)]
    congr 1
    simp only [bumpTag, List.take_succ_cons, List.countP_cons, bump_count_eq]

/-- C6: Within each date group, each file is tagged `EDT` if its keyword set contains the
literal keyword `Edit`, else `IMG` if its MIME type starts with `image/`, else `VID`; each
tag's counter restarts at 0 for every group, is rendered zero-padded to 3 digits, and is
assigned in input iteration order — the index of each file is exactly the number of earlier
same-tag files within its group, so indices within each (date-group, tag) pair are strictly
increasing from `000`. -/
theorem claim_C6_group_indices (sysOff : Int) (root : String) (labels : List String)
    (files : List PathRemapFile) :
    remapFilePaths sysOff files root labels
      = (labelledSubDirGroups sysOff labels files).flatMap (fun g =>
          g.files.mapIdx (fun i f =>
            let tag : FileTag :=
              if f.keywords.contains "Edit" then .EDT
              else if strStartsWith f.mimeType "image/" then .IMG else .VID
            { fileId := f.id, sourcePath := f.path,
              destinationPath := root ++ "/" ++ g.subDir ++ "/"
                ++ ((⟨tagChars tag⟩ : String) ++ "-" ++ ymdKey sysOff f.captureDateTime ++ "-"
                  ++ (⟨padNat 3 ((g.files.take i).countP (fun f2 => fileTag f2 == tag))⟩ : String)
                  ++ extnameOf f.path) })) := by
  unfold remapFilePaths
  congr 1
  funext g
  rw [assignNames_eq_mapIdx]
  congr 1
  funext i f
  show _ = (fun tag =>
    ({ fileId := f.id, sourcePath := f.path,
       destinationPath := root ++ "/" ++ g.subDir ++ "/"
         ++ ((⟨tagChars tag⟩ : String) ++ "-" ++ ymdKey sysOff f.captureDateTime ++ "-"
           ++ (⟨padNat 3 ((g.files.take i).countP (fun f2 => fileTag f2 == tag))⟩ : String)
           ++ extnameOf f.path) } : PathRemap)) (fileTag f)
  simp only [newFileName, fileTag, Nat.zero_add]

/-- Two files land in the same element of `fileGroupsBySubDir`. -/
def inSameGroup (sysOff : Int) (files : List PathRemapFile) (f g : PathRemapFile) : Prop :=
  ∃ grp ∈ fileGroupsBySubDir sysOff files, f ∈ grp.files ∧ g ∈ grp.files

theorem mem_dedupFirst_go [DecidableEq α] (seen l : List α) (a : α) :
    a ∈ dedupFirst.go seen l ↔ a ∈ l ∧ a ∉ seen := by
  induction l generalizing seen with
  | nil => simp [dedupFirst.go]
  | cons x xs ih =>
    rw [dedupFirst.go]
    by_cases hx : x ∈ seen
    · rw [if_pos hx, ih]
      constructor
      · exact fun ⟨h1, h2⟩ => ⟨List.mem_cons_of_mem x h1, h2⟩
      · rintro ⟨h1, h2⟩
        rcases List.mem_cons.mp h1 with rfl | h1
        · exact absurd hx h2
        · exact ⟨h1, h2⟩
    · rw [if_neg hx]
      simp only [List.mem_cons, ih]
      constructor
      · rintro (rfl | ⟨h1, h2⟩)
        · exact ⟨Or.inl rfl, hx⟩
        · exact ⟨Or.inr h1, fun hc => h2 (Or.inr hc)⟩
      · rintro ⟨rfl | h1, h2⟩
        · exact Or.inl rfl
        · by_cases hax : a = x
          · exact Or.inl hax
          · exact Or.inr ⟨h1, by simp [hax, h2]⟩

theorem mem_dedupFirst [DecidableEq α] {a : α} {l : List α} : a ∈ dedupFirst l ↔ a ∈ l := by
  rw [dedupFirst, mem_dedupFirst_go]
  simp

theorem mem_group_key {sysOff : Int} {files : List PathRemapFile} {grp : FileGroup}
    (hgrp : grp ∈ fileGroupsBySubDir sysOff files) {f : PathRemapFile} (hf : f ∈ grp.files) :
    dateGroupKey sysOff f.captureDateTime = grp.subDir := by
  unfold fileGroupsBySubDir at hgrp
  obtain ⟨s, -, rfl⟩ := List.mem_map.mp hgrp
  have := List.of_mem_filter hf
  simpa using this

theorem inSameGroup_iff_key {sysOff : Int} {files : List PathRemapFile} {f g : PathRemapFile}
    (hf : f ∈ files) (hg : g ∈ files) :
    inSameGroup sysOff files f g
      ↔ dateGroupKey sysOff f.captureDateTime = dateGroupKey sysOff g.captureDateTime := by
  constructor
  · rintro ⟨grp, hgrp, hfg, hgg⟩
    rw [mem_group_key hgrp hfg, mem_group_key hgrp hgg]
  · intro hkey
    refine ⟨⟨dateGroupKey sysOff f.captureDateTime,
      files.filter (fun x => dateGroupKey sysOff x.captureDateTime
        == dateGroupKey sysOff f.captureDateTime)⟩, ?_, ?_, ?_⟩
    · unfold fileGroupsBySubDir
      refine List.mem_map.mpr ⟨dateGroupKey sysOff f.captureDateTime, ?_, rfl⟩
      unfold subDirsOf
      exact mem_dedupFirst.mpr (List.mem_map.mpr ⟨f, hf, rfl⟩)
    · exact List.mem_filter.mpr ⟨hf, by simp⟩
    · exact List.mem_filter.mpr ⟨hg, by simp [hkey]⟩

theorem dateGroupKey_eq_iff {sysOff t1 t2 : Int}
    (h1l : 0 ≤ (civilFromInstant sysOff t1).year) (h1u : (civilFromInstant sysOff t1).year < 10000)
    (h2l : 0 ≤ (civilFromInstant sysOff t2).year) (h2u : (civilFromInstant sysOff t2).year < 10000) :
    dateGroupKey sysOff t1 = dateGroupKey sysOff t2
      ↔ civilFromInstant sysOff t1 = civilFromInstant sysOff t2 := by
  simp only [civilFromInstant] at h1l h1u h2l h2u ⊢
  constructor
  · intro h
    have hb1 := civilFromDays_field_bounds ((t1 + sysOff * 60).ediv 86400)
    have hb2 := civilFromDays_field_bounds ((t2 + sysOff * 60).ediv 86400)
    have hchars : dateGroupChars (civilFromDays ((t1 + sysOff * 60).ediv 86400))
        = dateGroupChars (civilFromDays ((t2 + sysOff * 60).ediv 86400)) := by
      have := congrArg String.data h
      simpa [dateGroupKey, civilFromInstant] using this
    exact dateGroupChars_inj h1l h1u h2l h2u (by omega) (by omega) (by omega) (by omega) hchars
  · intro h
    unfold dateGroupKey civilFromInstant
    rw [h]

/-- C1 (amended): `remapFilePaths` renders every file's date-group folder string from the
capture instant at the **process-local** zone (`sysOff`) — the file's stored timezone is not
consulted (the planner's input carries none) — and, for dates with 4-digit years, two files
fall in the same group exactly when their instants share a calendar date in the process-local
zone. -/
theorem claim_C1_amended (sysOff : Int) (files : List PathRemapFile) (f g : PathRemapFile)
    (hf : f ∈ files) (hg : g ∈ files)
    (hyfl : 0 ≤ (civilFromInstant sysOff f.captureDateTime).year)
    (hyfu : (civilFromInstant sysOff f.captureDateTime).year < 10000)
    (hygl : 0 ≤ (civilFromInstant sysOff g.captureDateTime).year)
    (hygu : (civilFromInstant sysOff g.captureDateTime).year < 10000) :
    (∀ grp ∈ fileGroupsBySubDir sysOff files, ∀ x ∈ grp.files,
        grp.subDir = (⟨dateGroupChars (civilFromInstant sysOff x.captureDateTime)⟩ : String))
    ∧ (inSameGroup sysOff files f g
        ↔ civilFromInstant sysOff f.captureDateTime = civilFromInstant sysOff g.captureDateTime) := by
  constructor
  · intro grp hgrp x hx
    exact (mem_group_key hgrp hx).symm
  · rw [inSameGroup_iff_key hf hg]
    exact dateGroupKey_eq_iff hyfl hyfu hygl hygu

/-- C1 (amended) at a concrete input: two files whose instants are 2020-01-01T20:00Z and
2020-01-01T21:00Z, process zone UTC. -/
theorem claim_C1_amended_witness :
    let f : PathRemapFile := ⟨1, "/up/a.jpg", 18262 * 86400 + 20 * 3600, "image/jpeg", []⟩
    let g : PathRemapFile := ⟨2, "/up/b.jpg", 18262 * 86400 + 21 * 3600, "image/jpeg", []⟩
    (∀ grp ∈ fileGroupsBySubDir 0 [f, g], ∀ x ∈ grp.files,
        grp.subDir = (⟨dateGroupChars (civilFromInstant 0 x.captureDateTime)⟩ : String))
    ∧ (inSameGroup 0 [f, g] f g
        ↔ civilFromInstant 0 f.captureDateTime = civilFromInstant 0 g.captureDateTime) :=
  claim_C1_amended 0 _ _ _ (by decide) (by decide) (by decide) (by decide) (by decide) (by decide)

/-- Modelled from the spec (claim C1): the date-group folder string the claim predicts —
the instant rendered in the file's **stored** timezone, whose offset `fileOff` must be
supplied separately because the code's `PathRemapFile` carries no timezone field. -/
def claimC1SubDir (fileOff : Int) (f : PathRemapFile) : String :=
  dateGroupKey fileOff f.captureDateTime

/-- C1 counterexample: a file captured at instant 2020-01-01T20:00:00Z whose stored timezone
is UTC+14:00 (`fileOff = 840`, e.g. Pacific/Kiritimati), committed by a process running in
UTC (`sysOff = 0`).  The claim predicts the `2020/01 - January/02` folder (the local date in
the stored zone); the code produces `2020/01 - January/01` (the process zone's date). -/
theorem claim_C1_counterexample :
    (remapFilePaths 0 [⟨1, "/up/a.jpg", 18262 * 86400 + 20 * 3600, "image/jpeg", []⟩] "lib" []).map
        (fun r => r.destinationPath)
      = ["lib/" ++ "2020/01 - January/01" ++ "/IMG-20200101-000.jpg"]
    ∧ claimC1SubDir 840 ⟨1, "/up/a.jpg", 18262 * 86400 + 20 * 3600, "image/jpeg", []⟩
      = "2020/01 - January/02"
    ∧ ("2020/01 - January/01" : String) ≠ "2020/01 - January/02" := by
  refine ⟨by decide, by decide, by decide⟩

/-! ## `db/index.ts` — `database.keywords.getFolderLabels`

The query filters keywords flagged `isFolderLabel` (optionally restricted to a subset of
ids) and orders them ascending by `CASE WHEN category = 'Album' THEN 3 WHEN category =
'Group' THEN 2 ELSE 1 END`.  The `ORDER BY` is modelled by a stable insertion sort on that
rank (SQL fixes only the rank order; tie order among equal ranks is backend-dependent). -/

inductive KeywordCategory | Album | Group | Location | Person | Animal | Other
deriving DecidableEq

/-- The `CASE` expression of the query: category priority `Album > Group > others`. -/
def categoryRank : KeywordCategory → Nat
  | .Album => 3
  | .Group => 2
  | _ => 1

/-- A row of the `keywords` table (the columns this query touches). -/
structure KeywordRow where
  id : Nat
  keyword : String
  category : KeywordCategory
  folderLabel : Bool
deriving DecidableEq

/-- Stable insert for the rank order: `k` goes after every element of rank `≤` its own. -/
def insertByRank (k : KeywordRow) : List KeywordRow → List KeywordRow
  | [] => [k]
  | x :: xs =>
    if categoryRank x.category ≤ categoryRank k.category then x :: insertByRank k xs
    else k :: x :: xs

/-- Stable insertion sort by ascending category rank (the query's `ORDER BY`). -/
def sortByRank : List KeywordRow → List KeywordRow
  | [] => []
  | x :: xs => insertByRank x (sortByRank xs)

/-- The `WHERE` clause of `getFolderLabels`. -/
def folderLabelFilter (ids : List Nat) (k : KeywordRow) : Bool :=
  k.folderLabel && (ids.isEmpty || ids.contains k.id)

/-- The rows `getFolderLabels` orders. -/
def sortedFolderRows (tbl : List KeywordRow) (ids : List Nat) : List KeywordRow :=
  sortByRank (tbl.filter (folderLabelFilter ids))

/-- `database.keywords.getFolderLabels(subsetKeywordIds)`. -/
def getFolderLabels (tbl : List KeywordRow) (ids : List Nat) : List String :=
  (sortedFolderRows tbl ids).map (fun k => k.keyword)

theorem insertByRank_perm (k : KeywordRow) (l : List KeywordRow) :
    (insertByRank k l).Perm (k :: l) := by
  induction l with
  | nil => exact List.Perm.refl _
  | cons x xs ih =>
    rw [insertByRank]
    by_cases h : categoryRank x.category ≤ categoryRank k.category
    · rw [if_pos h]
      exact (ih.cons x).trans (List.Perm.swap k x xs)
    · rw [if_neg h]

theorem insertByRank_pairwise {k : KeywordRow} {l : List KeywordRow}
    (h : l.Pairwise (fun a b => categoryRank a.category ≤ categoryRank b.category)) :
    (insertByRank k l).Pairwise (fun a b => categoryRank a.category ≤ categoryRank b.category) := by
  induction l with
  | nil => simp [insertByRank]
  | cons x xs ih =>
    rw [List.pairwise_cons] at h
    obtain ⟨hx, hxs⟩ := h
    rw [insertByRank]
    by_cases hle : categoryRank x.category ≤ categoryRank k.category
    · rw [if_pos hle]
      rw [List.pairwise_cons]
      refine ⟨?_, ih hxs⟩
      intro a ha
      have := (insertByRank_perm k xs).mem_iff.mp ha
      rcases List.mem_cons.mp this with rfl | hmem
      · exact hle
      · exact hx a hmem
    · rw [if_neg hle]
      rw [List.pairwise_cons]
      refine ⟨?_, List.pairwise_cons.mpr ⟨hx, hxs⟩⟩
      intro a ha
      rcases List.mem_cons.mp ha with rfl | hmem
      · omega
      · exact le_trans (by omega) (hx a hmem)

theorem sortByRank_perm (l : List KeywordRow) : (sortByRank l).Perm l := by
  induction l with
  | nil => exact List.Perm.refl _
  | cons x xs ih =>
    rw [sortByRank]
    exact (insertByRank_perm x (sortByRank xs)).trans (ih.cons x)

theorem sortByRank_pairwise (l : List KeywordRow) :
    (sortByRank l).Pairwise (fun a b => categoryRank a.category ≤ categoryRank b.category) := by
  induction l with
  | nil => simp [sortByRank]
  | cons x xs ih => exact insertByRank_pairwise ih

/-- The largest element of a list of naturals (structural, kernel-reducible). -/
def natListMax? : List Nat → Option Nat
  | [] => none
  | i :: is =>
    match natListMax? is with
    | none => some i
    | some j => some (max i j)

/-- Modelled from the claim as amended: each member file contributes the index of the
*first* label of the priority list found in its keyword set (its lowest-priority match);
the group's suffix comes from the largest contributed index, and is empty when no member
matches any label. -/
def amendedGroupSuffix (labels : List String) (files : List PathRemapFile) : String :=
  match natListMax?
      (files.filterMap (fun f => labels.findIdx? (fun lab => f.keywords.contains lab))) with
  | none => ""
  | some i => " - " ++ labels.getD i ""

theorem natListMax?_cons (i : Nat) (m : List Nat) :
    natListMax? (i :: m) = match natListMax? m with
      | none => some i
      | some j => some (max i j) := rfl

theorem fold_candidate_eq (labels : List String) :
    ∀ (files : List PathRemapFile) (a : Int), -1 ≤ a →
      files.foldl (fun acc f =>
          if acc < candidateLabelIdx labels f then candidateLabelIdx labels f else acc) a
        = match natListMax?
            (files.filterMap (fun f => labels.findIdx? (fun lab => f.keywords.contains lab))) with
          | none => a
          | some i => max a (i : Int) := by
  intro files
  induction files with
  | nil => intro a _; rfl
  | cons f fs ih =>
    intro a ha
    rw [List.foldl_cons]
    have hstep : (if a < candidateLabelIdx labels f then candidateLabelIdx labels f else a)
        = max a (candidateLabelIdx labels f) := by
      rcases le_or_lt (candidateLabelIdx labels f) a with h | h
      · rw [if_neg (by omega), max_eq_left h]
      · rw [if_pos h, max_eq_right (le_of_lt h)]
    rw [hstep]
    cases hidx : labels.findIdx? (fun lab => f.keywords.contains lab) with
    | none =>
      have hcand : candidateLabelIdx labels f = -1 := by
        unfold candidateLabelIdx
        rw [hidx]
      have hfm : (f :: fs).filterMap (fun f2 => labels.findIdx? (fun lab => f2.keywords.contains lab))
          = fs.filterMap (fun f2 => labels.findIdx? (fun lab => f2.keywords.contains lab)) := by
        rw [List.filterMap_cons, hidx]
      rw [hfm, hcand, max_eq_left ha]
      exact ih a ha
    | some i =>
      have hcand : candidateLabelIdx labels f = (i : Int) := by
        unfold candidateLabelIdx
        rw [hidx]
      have hfm : (f :: fs).filterMap (fun f2 => labels.findIdx? (fun lab => f2.keywords.contains lab))
          = i :: fs.filterMap (fun f2 => labels.findIdx? (fun lab => f2.keywords.contains lab)) := by
        rw [List.filterMap_cons, hidx]
      rw [hfm, hcand, natListMax?_cons, ih (max a (i : Int)) (by omega)]
      cases hmax : natListMax?
          (fs.filterMap (fun f2 => labels.findIdx? (fun lab => f2.keywords.contains lab))) with
      | none => rfl
      | some j =>
        show max (max a (i : Int)) (j : Int) = max a ((max i j : Nat) : Int)
        rw [Nat.cast_max, max_assoc]

theorem groupFolderLabelIdx_eq (labels : List String) (files : List PathRemapFile) :
    groupFolderLabelIdx labels files
      = match natListMax?
          (files.filterMap (fun f => labels.findIdx? (fun lab => f.keywords.contains lab))) with
        | none => -1
        | some i => (i : Int) := by
  rw [groupFolderLabelIdx, fold_candidate_eq labels files (-1) (by omega)]
  cases natListMax? (files.filterMap
      (fun f => labels.findIdx? (fun lab => f.keywords.contains lab))) with
  | none => rfl
  | some i =>
    show max (-1 : Int) (i : Int) = (i : Int)
    exact max_eq_right (by omega)

/-- C5 (amended): the folder-label list is ordered ascending by category rank (`Album`
above `Group` above every other category, higher index = higher priority) and is a
permutation of the flagged rows; and each date group's suffix is `" - L"` where `L` is the
label at the *largest* index contributed by any member file — each file contributing only
the index of the **first** (lowest-priority) label of the list present in its own keyword
set — with no suffix when no member matches. -/
theorem claim_C5_amended :
    (∀ (tbl : List KeywordRow) (ids : List Nat),
        getFolderLabels tbl ids = (sortedFolderRows tbl ids).map (fun k => k.keyword)
        ∧ (sortedFolderRows tbl ids).Pairwise
            (fun a b => categoryRank a.category ≤ categoryRank b.category)
        ∧ (sortedFolderRows tbl ids).Perm (tbl.filter (folderLabelFilter ids)))
    ∧ (∀ (sysOff : Int) (labels : List String) (files : List PathRemapFile),
        labelledSubDirGroups sysOff labels files
          = (fileGroupsBySubDir sysOff files).map (fun g =>
              ⟨g.subDir ++ amendedGroupSuffix labels g.files, g.files⟩)) := by
  constructor
  · intro tbl ids
    exact ⟨rfl, sortByRank_pairwise _, sortByRank_perm _⟩
  · intro sysOff labels files
    unfold labelledSubDirGroups
    congr 1
    funext g
    rw [groupFolderLabelIdx_eq]
    unfold amendedGroupSuffix
    cases hmax : natListMax? (g.files.filterMap
        (fun f => labels.findIdx? (fun lab => f.keywords.contains lab))) with
    | none => simp
    | some i =>
      have hne : ((i : Int) = -1) = False := eq_false (by omega)
      simp only [hne, if_false]
      have htn : ((i : Int)).toNat = i := rfl
      rw [htn]
      congr 1
      rw [String.append_assoc]

/-- Modelled from the spec (claim C5 as stated): the suffix from the **highest-priority**
folder-label keyword occurring in *any* member file's keyword set. -/
def claimC5Suffix (labels : List String) (files : List PathRemapFile) : String :=
  match natListMax? ((List.range labels.length).filter
      (fun i => files.any (fun f => f.keywords.contains (labels.getD i "")))) with
  | none => ""
  | some i => " - " ++ labels.getD i ""

/-- C5 counterexample: with the priority list `["Family", "Birthday"]` (ascending rank:
`Family` is a Group keyword, `Birthday` an Album keyword), a group whose single member
carries **both** keywords gets the code's suffix `" - Family"` — `findIndex` returns the
file's lowest-priority match — while the claim predicts `" - Birthday"`, the
highest-priority label occurring in the member's keyword set. -/
theorem claim_C5_counterexample :
    getFolderLabels
        [⟨1, "Family", .Group, true⟩, ⟨2, "Birthday", .Album, true⟩] []
      = ["Family", "Birthday"]
    ∧ (labelledSubDirGroups 0 ["Family", "Birthday"]
        [⟨1, "/up/a.jpg", 0, "image/jpeg", ["Family", "Birthday"]⟩]).map (fun g => g.subDir)
      = ["1970/01 - January/01" ++ " - Family"]
    ∧ claimC5Suffix ["Family", "Birthday"]
        [⟨1, "/up/a.jpg", 0, "image/jpeg", ["Family", "Birthday"]⟩]
      = " - Birthday"
    ∧ (" - Family" : String) ≠ " - Birthday" := by
  refine ⟨by decide, by decide, by decide, by decide⟩

/-! ## `exiftool-wrapper.ts` — property names, the zod read schema, and the resolver

The four priority-ordered candidate lists are `const` arrays in the source; the order below
is the source's order.  All string validation mirrors `regexPatterns` of the source:
matchers on the character lists stand in for the anchored regexes. -/

inductive DTProp
  | dateTimeCreated | qtCreationDate | qtDateTimeOriginal | dateTimeOriginal
  | trackCreateDate | mediaCreateDate | createDate
deriving DecidableEq

/-- `ExifDateTimeProps`, in source order. -/
def ExifDateTimeProps : List DTProp :=
  [.dateTimeCreated, .qtCreationDate, .qtDateTimeOriginal, .dateTimeOriginal,
   .trackCreateDate, .mediaCreateDate, .createDate]

inductive OffProp | offsetTime | offsetTimeOriginal | offsetTimeDigitized
deriving DecidableEq

/-- `ExifOffsetTimeProps`, in source order. -/
def ExifOffsetTimeProps : List OffProp := [.offsetTime, .offsetTimeOriginal, .offsetTimeDigitized]

inductive TitleProp | title | description | xpTitle | imageDescription
deriving DecidableEq

/-- `ExifTitleProps`, in source order. -/
def ExifTitleProps : List TitleProp := [.title, .description, .xpTitle, .imageDescription]

inductive KwProp | category | keywords | subject | xpKeywords
deriving DecidableEq

/-- `ExifKeywordsProps`, in source order. -/
def ExifKeywordsProps : List KwProp := [.category, .keywords, .subject, .xpKeywords]

/-- The parsed content of a `GPSCoordinates` string, `"latitude longitude [altitude]"`
(held structurally; the source renders it as text). -/
structure GpsCoord where
  lat : ℚ
  long : ℚ
  alt : Option ℚ
deriving DecidableEq

/-- A validated metadata document (`ExifData`, the type both of the parsed read schema and
of the write-back document).  `none` stands for a JS `undefined` field. -/
structure ExifData where
  SourceFile : String
  MIMEType : String
  DateTimeOriginal : Option String := none
  QuicktimeCreationDate : Option String := none
  QuicktimeDateTimeOriginal : Option String := none
  TrackCreateDate : Option String := none
  MediaCreateDate : Option String := none
  DateTimeCreated : Option String := none
  CreateDate : Option String := none
  OffsetTime : Option String := none
  OffsetTimeOriginal : Option String := none
  OffsetTimeDigitized : Option String := none
  Title : Option String := none
  Description : Option String := none
  XPTitle : Option String := none
  ImageDescription : Option String := none
  Category : Option (List String) := none
  Keywords : Option (List String) := none
  Subject : Option (List String) := none
  XPKeywords : Option String := none
  GPSLatitude : Option ℚ := none
  GPSLatitudeRef : Option Char := none
  GPSLongitude : Option ℚ := none
  GPSLongitudeRef : Option Char := none
  GPSAltitude : Option ℚ := none
  GPSAltitudeRef : Option Nat := none
  GPSCoordinates : Option GpsCoord := none
deriving DecidableEq

def ExifData.getDT (e : ExifData) : DTProp → Option String
  | .dateTimeCreated => e.DateTimeCreated
  | .qtCreationDate => e.QuicktimeCreationDate
  | .qtDateTimeOriginal => e.QuicktimeDateTimeOriginal
  | .dateTimeOriginal => e.DateTimeOriginal
  | .trackCreateDate => e.TrackCreateDate
  | .mediaCreateDate => e.MediaCreateDate
  | .createDate => e.CreateDate

def ExifData.getOff (e : ExifData) : OffProp → Option String
  | .offsetTime => e.OffsetTime
  | .offsetTimeOriginal => e.OffsetTimeOriginal
  | .offsetTimeDigitized => e.OffsetTimeDigitized

def ExifData.getTitle (e : ExifData) : TitleProp → Option String
  | .title => e.Title
  | .description => e.Description
  | .xpTitle => e.XPTitle
  | .imageDescription => e.ImageDescription

/-- Presence test for the keyword-bearing properties (`exifData[prop] !== undefined`). -/
def ExifData.kwPresent (e : ExifData) : KwProp → Bool
  | .category => e.Category.isSome
  | .keywords => e.Keywords.isSome
  | .subject => e.Subject.isSome
  | .xpKeywords => e.XPKeywords.isSome

def ExifData.getKwList (e : ExifData) : KwProp → Option (List String)
  | .category => e.Category
  | .keywords => e.Keywords
  | .subject => e.Subject
  | .xpKeywords => none

/-- Digit test for the matchers. -/
def isDigitCh (c : Char) : Bool := decide ('0' ≤ c) && decide (c ≤ '9')

/-- Matcher for `regexPatterns.exifTimezoneOffset` (`^[+-]\d\d:\d\d$`), returning the
signed offset in minutes. -/
def matchOffsetChars : List Char → Option Int
  | [sg, a, b, ':', c, d] =>
    if (sg = '+' || sg = '-') && isDigitCh a && isDigitCh b && isDigitCh c && isDigitCh d then
      some ((if sg = '-' then -1 else 1) * ((chDigit a * 10 + chDigit b) * 60 + (chDigit c * 10 + chDigit d)))
    else none
  | _ => none

/-- The wall-clock fields of an EXIF datetime string, plus its own offset suffix if any. -/
structure DTFields where
  y : Nat
  mo : Nat
  d : Nat
  h : Nat
  mi : Nat
  s : Nat
  off : Option Int
deriving DecidableEq

/-- Matcher for `regexPatterns.exifDateTimeOptionalOffset`
(`^\d{4}:\d{2}:\d{2} \d{2}:\d{2}:\d{2}([+-]\d{2}:\d{2})?$`). -/
def matchDateTimeOptOffset : List Char → Option DTFields
  | [y1, y2, y3, y4, ':', m1, m2, ':', d1, d2, ' ', h1, h2, ':', i1, i2, ':', s1, s2] =>
    if isDigitCh y1 && isDigitCh y2 && isDigitCh y3 && isDigitCh y4 && isDigitCh m1 && isDigitCh m2
        && isDigitCh d1 && isDigitCh d2 && isDigitCh h1 && isDigitCh h2 && isDigitCh i1
        && isDigitCh i2 && isDigitCh s1 && isDigitCh s2 then
      some ⟨chDigit y1 * 1000 + chDigit y2 * 100 + chDigit y3 * 10 + chDigit y4,
            chDigit m1 * 10 + chDigit m2, chDigit d1 * 10 + chDigit d2,
            chDigit h1 * 10 + chDigit h2, chDigit i1 * 10 + chDigit i2,
            chDigit s1 * 10 + chDigit s2, none⟩
    else none
  | [y1, y2, y3, y4, ':', m1, m2, ':', d1, d2, ' ', h1, h2, ':', i1, i2, ':', s1, s2,
     sg, o1, o2, ':', p1, p2] =>
    if isDigitCh y1 && isDigitCh y2 && isDigitCh y3 && isDigitCh y4 && isDigitCh m1 && isDigitCh m2
        && isDigitCh d1 && isDigitCh d2 && isDigitCh h1 && isDigitCh h2 && isDigitCh i1
        && isDigitCh i2 && isDigitCh s1 && isDigitCh s2 then
      match matchOffsetChars [sg, o1, o2, ':', p1, p2] with
      | some off =>
        some ⟨chDigit y1 * 1000 + chDigit y2 * 100 + chDigit y3 * 10 + chDigit y4,
              chDigit m1 * 10 + chDigit m2, chDigit d1 * 10 + chDigit d2,
              chDigit h1 * 10 + chDigit h2, chDigit i1 * 10 + chDigit i2,
              chDigit s1 * 10 + chDigit s2, some off⟩
      | none => none
    else none
  | _ => none

/-- `regexPatterns.exifDateTime` (no offset suffix allowed). -/
def isExifDateTime (s : String) : Bool :=
  match matchDateTimeOptOffset s.data with
  | some f => f.off.isNone
  | none => false

/-- `regexPatterns.exifDateTimeOffset` (offset suffix required). -/
def isExifDateTimeOffset (s : String) : Bool :=
  match matchDateTimeOptOffset s.data with
  | some f => f.off.isSome
  | none => false

/-- `regexPatterns.exifTimezoneOffset`. -/
def isExifTimezoneOffset (s : String) : Bool := (matchOffsetChars s.data).isSome

/-- The literal all-zero datetime the schema rejects. -/
def zeroDateTime : String := "0000:00:00 00:00:00"

/-- Validator of `DateTimeOriginal` / `TrackCreateDate` / `MediaCreateDate` / `CreateDate`:
`refine(exifDateTime).refine(≠ all-zero)`, with `.catch(undefined)`. -/
def vDT (v : String) : Option String :=
  if isExifDateTime v && v ≠ zeroDateTime then some v else none

/-- Validator of the two Quicktime fields: `refine(exifDateTimeOffset).refine(≠ all-zero)`. -/
def vDTOff (v : String) : Option String :=
  if isExifDateTimeOffset v && v ≠ zeroDateTime then some v else none

/-- Validator of `DateTimeCreated`: `refine(exifDateTimeOffset).refine(¬ startsWith all-zero)`. -/
def vDTCreated (v : String) : Option String :=
  if isExifDateTimeOffset v && ¬ strStartsWith v zeroDateTime then some v else none

/-- Validator of the three offset fields. -/
def vOffset (v : String) : Option String :=
  if isExifTimezoneOffset v then some v else none

/-- The zod union `string → [string] | array(min 1)` of the keyword fields. -/
def vKeywordUnion : Sum String (List String) → Option (List String)
  | .inl s => some [s]
  | .inr l => if 1 ≤ l.length then some l else none

def vLatitude (q : ℚ) : Option ℚ := if -90 ≤ q ∧ q ≤ 90 then some q else none

def vLongitude (q : ℚ) : Option ℚ := if -180 ≤ q ∧ q ≤ 180 then some q else none

def vLatRef (s : String) : Option Char :=
  if s = "N" then some 'N' else if s = "S" then some 'S' else none

def vLongRef (s : String) : Option Char :=
  if s = "W" then some 'W' else if s = "E" then some 'E' else none

def vAltRef (q : ℚ) : Option Nat := if q = 0 then some 0 else if q = 1 then some 1 else none

/-- The raw property bag exiftool's JSON output yields, before zod validation (`none` =
property missing).  Keyword fields carry the string-or-array union.  (`GPSCoordinates` is
validated and never consumed on the read side; it is outside this record.) -/
structure RawExif where
  SourceFile : Option String := none
  MIMEType : Option String := none
  DateTimeOriginal : Option String := none
  QuicktimeCreationDate : Option String := none
  QuicktimeDateTimeOriginal : Option String := none
  TrackCreateDate : Option String := none
  MediaCreateDate : Option String := none
  DateTimeCreated : Option String := none
  CreateDate : Option String := none
  OffsetTime : Option String := none
  OffsetTimeOriginal : Option String := none
  OffsetTimeDigitized : Option String := none
  Title : Option String := none
  Description : Option String := none
  XPTitle : Option String := none
  ImageDescription : Option String := none
  Category : Option (Sum String (List String)) := none
  Keywords : Option (Sum String (List String)) := none
  Subject : Option (Sum String (List String)) := none
  XPKeywords : Option String := none
  GPSLatitude : Option ℚ := none
  GPSLatitudeRef : Option String := none
  GPSLongitude : Option ℚ := none
  GPSLongitudeRef : Option String := none
  GPSAltitude : Option ℚ := none
  GPSAltitudeRef : Option ℚ := none
deriving DecidableEq

/-- `ExifDataSchema.parse` (`ExifReadableDataSchema`): `SourceFile` and `MIMEType` are
mandatory and the MIME type must be `image/*` or `video/*`, else the whole parse fails;
every other field falls back to `undefined` when its own validation fails
(`.optional().catch(undefined)`). -/
def validateExif (raw : RawExif) : Option ExifData :=
  match raw.SourceFile, raw.MIMEType with
  | some src, some mime =>
    if strStartsWith mime "image/" || strStartsWith mime "video/" then
      some { SourceFile := src
             MIMEType := mime
             DateTimeOriginal := raw.DateTimeOriginal.bind vDT
             QuicktimeCreationDate := raw.QuicktimeCreationDate.bind vDTOff
             QuicktimeDateTimeOriginal := raw.QuicktimeDateTimeOriginal.bind vDTOff
             TrackCreateDate := raw.TrackCreateDate.bind vDT
             MediaCreateDate := raw.MediaCreateDate.bind vDT
             DateTimeCreated := raw.DateTimeCreated.bind vDTCreated
             CreateDate := raw.CreateDate.bind vDT
             OffsetTime := raw.OffsetTime.bind vOffset
             OffsetTimeOriginal := raw.OffsetTimeOriginal.bind vOffset
             OffsetTimeDigitized := raw.OffsetTimeDigitized.bind vOffset
             Title := raw.Title
             Description := raw.Description
             XPTitle := raw.XPTitle
             ImageDescription := raw.ImageDescription
             Category := raw.Category.bind vKeywordUnion
             Keywords := raw.Keywords.bind vKeywordUnion
             Subject := raw.Subject.bind vKeywordUnion
             XPKeywords := raw.XPKeywords
             GPSLatitude := raw.GPSLatitude.bind vLatitude
             GPSLatitudeRef := raw.GPSLatitudeRef.bind vLatRef
             GPSLongitude := raw.GPSLongitude.bind vLongitude
             GPSLongitudeRef := raw.GPSLongitudeRef.bind vLongRef
             GPSAltitude := raw.GPSAltitude
             GPSAltitudeRef := raw.GPSAltitudeRef.bind vAltRef
             GPSCoordinates := none }
    else none
  | _, _ => none


/-- `"a;b".split(';')` on the character list (JS `String.prototype.split` with a
one-character separator). -/
def splitSemiChars : List Char → List (List Char)
  | [] => [[]]
  | c :: cs =>
    let r := splitSemiChars cs
    if c = ';' then [] :: r
    else
      match r with
      | [] => [[c]]
      | x :: xs => (c :: x) :: xs

def splitSemi (s : String) : List String := (splitSemiChars s.data).map (fun l => ⟨l⟩)

/-- The instant of a wall-clock reading at a fixed offset (minutes). -/
def fieldsToInstant (f : DTFields) (offMin : Int) : Int :=
  daysFromCivil (f.y : Int) f.mo f.d * 86400 + ((f.h * 3600 + f.mi * 60 + f.s : Nat) : Int)
    - offMin * 60

/-- Luxon's calendar validation of `DateTime.fromFormat('yyyy:MM:dd HH:mm:ss[ZZ]')`. -/
def civilOk (f : DTFields) : Bool :=
  1 ≤ f.mo && f.mo ≤ 12 && 1 ≤ f.d && f.d ≤ daysInMonth (f.y : Int) f.mo
    && f.h ≤ 23 && f.mi ≤ 59 && f.s ≤ 59

/-- `parseExifDateTime(dateTime, offset?)`: match the optional-offset pattern; a given
`offset` argument overrides the string's own suffix; with neither, luxon parses in the
process zone (`sysOff`).  Returns the instant (epoch seconds), or `none` when the pattern
or the calendar fields are invalid. -/
def parseExifDateTime (sysOff : Int) (dateTime : String) (offset : Option String) : Option Int :=
  match matchDateTimeOptOffset dateTime.data with
  | none => none
  | some f =>
    match offset with
    | some o =>
      match matchOffsetChars o.data with
      | some om => if civilOk f then some (fieldsToInstant f om) else none
      | none => none
    | none => if civilOk f then some (fieldsToInstant f (f.off.getD sysOff)) else none

/-- An entry of the static `iana-tz.json` table: zone name and standard offset string. -/
structure TzEntry where
  zone : String
  std : String
deriving DecidableEq

/-- `getTimezoneFromOffset(offset?)`: with no offset, the process zone name; otherwise the
process zone when its table entry's standard offset equals the offset, else the first table
entry with that standard offset, else the process zone name again. -/
def getTimezoneFromOffset (table : List TzEntry) (sysZone : String) (offset : Option String) :
    String :=
  match offset with
  | none => sysZone
  | some o =>
    if (table.find? (fun tz => tz.zone == sysZone)).map (fun tz => tz.std) ≠ some o then
      match table.find? (fun tz => tz.std == o) with
      | some tz => tz.zone
      | none => sysZone
    else sysZone

/-- The application's canonical per-file record (`FileData`). -/
structure FileData where
  path : String
  mimeType : String
  captureDateTime : Option Int
  timezone : String
  title : Option String
  latitude : Option ℚ
  longitude : Option ℚ
  altitude : Option ℚ
  keywords : List String
deriving DecidableEq

/-- `convertExifToFileData(exifData)` — the property resolver.  `sysOff` is the process
zone's offset (minutes), `table`/`sysZone` feed the timezone heuristic. -/
def convertExifToFileData (sysOff : Int) (table : List TzEntry) (sysZone : String)
    (e : ExifData) : FileData :=
  let dtProp? := ExifDateTimeProps.find? (fun p => (e.getDT p).isSome)
  let offProp? := ExifOffsetTimeProps.find? (fun p => (e.getOff p).isSome)
  let rawOffset : Option String := offProp?.bind (fun p => e.getOff p)
  let captureDateTime : Option Int :=
    match dtProp? with
    | none => none
    | some p =>
      match e.getDT p with
      | none => none
      | some v =>
        if strStartsWith e.MIMEType "image/" || p = .qtCreationDate || p = .qtDateTimeOriginal then
          parseExifDateTime sysOff v rawOffset
        else
          parseExifDateTime sysOff v (some "+00:00")
  let captureOffset : Option String :=   -- assigned only inside if (dateTimeProp && exifData[dateTimeProp])
    match dtProp? with
    | none => none
    | some p =>
      match e.getDT p with
      | none => none
      | some v => if v = "" then none else rawOffset
  let timezone := getTimezoneFromOffset table sysZone captureOffset
  let titleProp? := ExifTitleProps.find? (fun p => (e.getTitle p).isSome)
  let title : Option String :=
    match titleProp?.bind (fun p => e.getTitle p) with
    | some t => if t = "" then none else some t    -- JS truthiness: '' stays null
    | none => none
  let kwProp? := ExifKeywordsProps.find? (fun p => e.kwPresent p)
  let keywords : List String :=
    match kwProp? with
    | none => []
    | some .xpKeywords =>
      match e.XPKeywords with
      | some s => if s = "" then [] else splitSemi s   -- JS truthiness: '' stays []
      | none => []
    | some p => (e.getKwList p).getD []
  { path := e.SourceFile
    mimeType := e.MIMEType
    captureDateTime := captureDateTime
    timezone := timezone
    title := title
    latitude := e.GPSLatitude
    longitude := e.GPSLongitude
    altitude := e.GPSAltitude
    keywords := keywords }


/-! ## `convertFileToExifData` — the write-back document builder -/

/-- A wall-clock reading (date plus time of day). -/
structure ClockReading where
  date : CivilDate
  h : Nat
  mi : Nat
  s : Nat
deriving DecidableEq

/-- The wall-clock reading of instant `t` at fixed offset `offMin` (what
`DateTime.fromJSDate(d).setZone(zone)` exposes to `toFormat`). -/
def localClock (offMin t : Int) : ClockReading :=
  let loc := t + offMin * 60
  ⟨civilFromDays (loc.ediv 86400), (loc.emod 86400).toNat / 3600,
   ((loc.emod 86400).toNat % 3600) / 60, (loc.emod 86400).toNat % 60⟩

/-- `toFormat('yyyy:MM:dd HH:mm:ss')`. -/
def dtColonChars (r : ClockReading) : List Char :=
  padNat 4 r.date.year.toNat ++ (':' :: (padNat 2 r.date.month ++ (':' :: (padNat 2 r.date.day
    ++ (' ' :: (padNat 2 r.h ++ (':' :: (padNat 2 r.mi ++ (':' :: padNat 2 r.s)))))))))

/-- `toFormat('yyyy-MM-dd HH:mm:ss')`. -/
def dtDashChars (r : ClockReading) : List Char :=
  padNat 4 r.date.year.toNat ++ ('-' :: (padNat 2 r.date.month ++ ('-' :: (padNat 2 r.date.day
    ++ (' ' :: (padNat 2 r.h ++ (':' :: (padNat 2 r.mi ++ (':' :: padNat 2 r.s)))))))))

/-- `toFormat('ZZ')`, e.g. `+05:30`. -/
def offsetChars (offMin : Int) : List Char :=
  (if offMin < 0 then '-' else '+')
    :: (padNat 2 (offMin.natAbs / 60) ++ (':' :: padNat 2 (offMin.natAbs % 60)))

/-- JS numeric truthiness of a nullable number: `null`/`undefined` and `0` are falsy. -/
def qTruthy : Option ℚ → Bool
  | none => false
  | some v => v ≠ 0

/-- JS `array.join(';')`. -/
def joinSemi (l : List String) : String := ⟨((l.map String.data).intersperse [';']).flatten⟩

/-- `convertFileToExifData(fileData)` (`ExifWriteableDataSchema`'s transform): derive every
writeable Exif property from the canonical record.  `tzOffsetOf` maps a stored zone name to
its fixed offset in minutes (luxon's `setZone`); the source's file-existence check is an
I/O effect outside this model. -/
def convertFileToExifData (tzOffsetOf : String → Int) (fd : FileData) : ExifData :=
  let offMin := tzOffsetOf fd.timezone
  let dateTime : Option String :=
    fd.captureDateTime.map (fun t => (⟨dtColonChars (localClock offMin t)⟩ : String))
  let offset : Option String :=
    fd.captureDateTime.map (fun _ => (⟨offsetChars offMin⟩ : String))
  let dateTimeOffset : Option String :=
    fd.captureDateTime.map (fun t =>
      (⟨dtDashChars (localClock offMin t) ++ offsetChars offMin⟩ : String))
  let utcDateTime : Option String :=
    fd.captureDateTime.map (fun t => (⟨dtDashChars (localClock 0 t)⟩ : String))
  let latitude := fd.latitude
  let longitude := fd.longitude
  let altitude := fd.altitude
  let gps := qTruthy latitude && qTruthy longitude
  let coordinate : Option GpsCoord :=
    if gps then
      some ⟨latitude.getD 0, longitude.getD 0, if qTruthy altitude then altitude else none⟩
    else none
  let latitudeRef : Option Char :=
    if gps then some (if 0 ≤ latitude.getD 0 then 'N' else 'S') else none
  let longitudeRef : Option Char :=
    if gps then some (if 0 ≤ longitude.getD 0 then 'E' else 'W') else none
  let altitudeRef : Option Nat :=
    if gps && qTruthy altitude then some (if 0 ≤ altitude.getD 0 then 0 else 1) else none
  let common : ExifData :=
    { SourceFile := fd.path
      MIMEType := fd.mimeType
      OffsetTime := offset
      OffsetTimeOriginal := offset
      OffsetTimeDigitized := offset
      Title := fd.title
      Description := fd.title
      XPTitle := fd.title
      ImageDescription := fd.title
      GPSLatitude := latitude
      GPSLatitudeRef := latitudeRef
      GPSLongitude := longitude
      GPSLongitudeRef := longitudeRef
      GPSAltitude := altitude
      GPSAltitudeRef := altitudeRef }
  if strStartsWith fd.mimeType "image/" then
    { common with
      DateTimeOriginal := dateTime
      DateTimeCreated := dateTimeOffset
      CreateDate := dateTime
      Keywords := some fd.keywords
      Subject := some fd.keywords
      XPKeywords := some (joinSemi fd.keywords) }
  else
    { common with
      QuicktimeCreationDate := dateTimeOffset
      QuicktimeDateTimeOriginal := dateTimeOffset
      TrackCreateDate := utcDateTime
      MediaCreateDate := utcDateTime
      CreateDate := utcDateTime
      Category := some fd.keywords
      GPSCoordinates := coordinate }

/-- C10: In the write-back document builder, exact-zero GPS values are treated as absent:
with both coordinates non-null, a zero latitude or longitude suppresses
`GPSLatitudeRef`/`GPSLongitudeRef`/`GPSAltitudeRef` and the whole `GPSCoordinates` value;
a zero altitude is excluded from `GPSCoordinates` and leaves `GPSAltitudeRef` unset; only
nonzero coordinates get sign-derived reference letters (`N`/`E` for values `≥ 0`, `S`/`W`
otherwise; altitude ref `0` for `≥ 0`, `1` otherwise), and the coordinate value exists
only for non-image files. -/
theorem claim_C10_zero_gps (tzOffsetOf : String → Int) (fd : FileData) (a b : ℚ)
    (hla : fd.latitude = some a) (hlo : fd.longitude = some b) :
    ((a = 0 ∨ b = 0) →
      (convertFileToExifData tzOffsetOf fd).GPSLatitudeRef = none
      ∧ (convertFileToExifData tzOffsetOf fd).GPSLongitudeRef = none
      ∧ (convertFileToExifData tzOffsetOf fd).GPSAltitudeRef = none
      ∧ (convertFileToExifData tzOffsetOf fd).GPSCoordinates = none)
    ∧ (a ≠ 0 → b ≠ 0 →
      (convertFileToExifData tzOffsetOf fd).GPSLatitudeRef
          = some (if 0 ≤ a then 'N' else 'S')
      ∧ (convertFileToExifData tzOffsetOf fd).GPSLongitudeRef
          = some (if 0 ≤ b then 'E' else 'W')
      ∧ (fd.altitude = some 0 →
          (convertFileToExifData tzOffsetOf fd).GPSAltitudeRef = none
          ∧ (convertFileToExifData tzOffsetOf fd).GPSCoordinates
              = (if strStartsWith fd.mimeType "image/" then none else some ⟨a, b, none⟩))
      ∧ (∀ c : ℚ, fd.altitude = some c → c ≠ 0 →
          (convertFileToExifData tzOffsetOf fd).GPSAltitudeRef
              = some (if 0 ≤ c then 0 else 1)
          ∧ (convertFileToExifData tzOffsetOf fd).GPSCoordinates
              = (if strStartsWith fd.mimeType "image/" then none else some ⟨a, b, some c⟩))) := by
  constructor
  · intro hz
    have hgps : (qTruthy fd.latitude && qTruthy fd.longitude) = false := by
      rcases hz with rfl | rfl
      · simp [qTruthy, hla]
      · simp [qTruthy, hlo, Bool.and_comm]
    unfold convertFileToExifData
    cases himg : strStartsWith fd.mimeType "image/" <;>
      simp [himg, hgps]
  · intro ha hb
    have hgps : (qTruthy fd.latitude && qTruthy fd.longitude) = true := by
      simp [qTruthy, hla, hlo, ha, hb]
    refine ⟨?_, ?_, ?_, ?_⟩
    · unfold convertFileToExifData
      cases himg : strStartsWith fd.mimeType "image/" <;>
        simp [himg, hgps, hla, hlo, qTruthy, ha, hb]
    · unfold convertFileToExifData
      cases himg : strStartsWith fd.mimeType "image/" <;>
        simp [himg, hgps, hla, hlo, qTruthy, ha, hb]
    · intro halt
      have htr : qTruthy fd.altitude = false := by simp [qTruthy, halt]
      unfold convertFileToExifData
      cases himg : strStartsWith fd.mimeType "image/" <;>
        simp [himg, hgps, htr, hla, hlo, halt, qTruthy, ha, hb]
    · intro c halt hc
      have htr : qTruthy fd.altitude = true := by simp [qTruthy, halt, hc]
      unfold convertFileToExifData
      cases himg : strStartsWith fd.mimeType "image/" <;>
        simp [himg, hgps, htr, hla, hlo, halt, qTruthy, ha, hb, hc]

/-- C10 at a concrete input: a video record with zero latitude and nonzero longitude. -/
theorem claim_C10_zero_gps_witness :
    (⟨"/up/a.mp4", "video/mp4", none, "UTC", none, some 0, some 5, some 3,
        []⟩ : FileData).latitude = some 0
    ∧ ((0 : ℚ) = 0 ∨ (5 : ℚ) = 0)
    ∧ (convertFileToExifData (fun _ => 0)
        ⟨"/up/a.mp4", "video/mp4", none, "UTC", none, some 0, some 5, some 3, []⟩).GPSLatitudeRef
        = none
    ∧ (convertFileToExifData (fun _ => 0)
        ⟨"/up/a.mp4", "video/mp4", none, "UTC", none, some 0, some 5, some 3, []⟩).GPSCoordinates
        = none := by
  refine ⟨rfl, Or.inl rfl, ?_, ?_⟩
  · exact ((claim_C10_zero_gps (fun _ => 0)
      ⟨"/up/a.mp4", "video/mp4", none, "UTC", none, some 0, some 5, some 3, []⟩ 0 5
      rfl rfl).1 (Or.inl rfl)).1
  · exact ((claim_C10_zero_gps (fun _ => 0)
      ⟨"/up/a.mp4", "video/mp4", none, "UTC", none, some 0, some 5, some 3, []⟩ 0 5
      rfl rfl).1 (Or.inl rfl)).2.2.2


/-! ## Claims C2, C3, C7, C8 — the resolver, the priority orders, the timezone heuristic,
and the all-zero datetime handling -/

/-- The `captureDateTime` computation of the resolver, exposed as an equation. -/
theorem convert_captureDateTime (sysOff : Int) (table : List TzEntry) (sysZone : String)
    (e : ExifData) :
    (convertExifToFileData sysOff table sysZone e).captureDateTime
      = match ExifDateTimeProps.find? (fun p => (e.getDT p).isSome) with
        | none => none
        | some p =>
          match e.getDT p with
          | none => none
          | some v =>
            if strStartsWith e.MIMEType "image/" || p = .qtCreationDate
                || p = .qtDateTimeOriginal then
              parseExifDateTime sysOff v
                ((ExifOffsetTimeProps.find? (fun q => (e.getOff q).isSome)).bind
                  (fun q => e.getOff q))
            else parseExifDateTime sysOff v (some "+00:00") := rfl

/-- Modelled from the spec (claim C2): the interpretation of the winning DateTime value,
stated on the wall-clock fields themselves — for an image, or a Quicktime-prefixed winner,
the fields are read as local time whose offset is the winning Offset candidate when one is
present, else the string's own suffix, else unresolved (process zone); for any other
winner on a video the fields are read as UTC (offset `+00:00` = 0 minutes). -/
def specC2Instant (sysOff : Int) (e : ExifData) : Option Int :=
  match ExifDateTimeProps.find? (fun p => (e.getDT p).isSome) with
  | none => none
  | some p =>
    match (e.getDT p).bind (fun v => matchDateTimeOptOffset v.data) with
    | none => none
    | some f =>
      if civilOk f then
        if strStartsWith e.MIMEType "image/" || p = .qtCreationDate
            || p = .qtDateTimeOriginal then
          some (fieldsToInstant f
            (((((ExifOffsetTimeProps.find? (fun q => (e.getOff q).isSome)).bind
                (fun q => (e.getOff q).bind (fun o => matchOffsetChars o.data)))).orElse
                  (fun _ => f.off)).getD sysOff))
        else some (fieldsToInstant f 0)
      else none

/-- C2: For every bag whose offset candidates are schema-valid, the resolver's
`captureDateTime` equals the spec-side interpretation `specC2Instant`: images and
Quicktime-prefixed winners are parsed as local time (winning Offset candidate first, the
string's own suffix second, unresolved otherwise); every other winner on a video is parsed
as UTC. -/
theorem claim_C2_interpretation (sysOff : Int) (table : List TzEntry) (sysZone : String)
    (e : ExifData)
    (hoff : ∀ q : OffProp, ∀ o, e.getOff q = some o → isExifTimezoneOffset o = true) :
    (convertExifToFileData sysOff table sysZone e).captureDateTime = specC2Instant sysOff e := by
  rw [convert_captureDateTime]
  unfold specC2Instant
  generalize hdt : ExifDateTimeProps.find? (fun p => (e.getDT p).isSome) = dtp
  cases dtp with
  | none => rfl
  | some p =>
    dsimp only
    have hp := List.find?_some hdt
    generalize hv : e.getDT p = dv
    rw [hv] at hp
    cases dv with
    | none => simp at hp
    | some v =>
      dsimp only
      rw [Option.some_bind]
      generalize hm : matchDateTimeOptOffset v.data = mf
      by_cases hbr : (strStartsWith e.MIMEType "image/" || p = DTProp.qtCreationDate
          || p = DTProp.qtDateTimeOriginal) = true
      · rw [if_pos hbr]
        generalize hq : ExifOffsetTimeProps.find? (fun q => (e.getOff q).isSome) = oq
        cases oq with
        | none =>
          rw [Option.none_bind, Option.none_bind]
          cases mf with
          | none => simp [parseExifDateTime, hm]
          | some f =>
            dsimp only
            rw [if_pos hbr]
            by_cases hok : civilOk f = true
            · simp [parseExifDateTime, hm, hok, Option.orElse]
            · simp [parseExifDateTime, hm, hok]
        | some q =>
          have hqs := List.find?_some hq
          generalize ho : e.getOff q = ov
          rw [ho] at hqs
          cases ov with
          | none => simp at hqs
          | some o =>
            rw [Option.some_bind, Option.some_bind, ho, Option.some_bind]
            have hwf : isExifTimezoneOffset o = true := hoff q o ho
            unfold isExifTimezoneOffset at hwf
            generalize hmo : matchOffsetChars o.data = mo
            rw [hmo] at hwf
            cases mo with
            | none => simp at hwf
            | some om =>
              cases mf with
              | none => simp [parseExifDateTime, hm]
              | some f =>
                dsimp only
                rw [if_pos hbr]
                by_cases hok : civilOk f = true
                · simp [parseExifDateTime, hm, hmo, hok, Option.orElse]
                · simp [parseExifDateTime, hm, hmo, hok]
      · rw [if_neg hbr]
        cases mf with
        | none => simp [parseExifDateTime, hm]
        | some f =>
          dsimp only
          rw [if_neg hbr]
          have h0 : matchOffsetChars ("+00:00").data = some 0 := by decide
          by_cases hok : civilOk f = true
          · simp [parseExifDateTime, hm, h0, hok]
          · simp [parseExifDateTime, hm, h0, hok]

/-- The concrete bag of the C2 witness: an image with `DateTimeOriginal` and `OffsetTime`. -/
def c2Bag : ExifData :=
  { SourceFile := "/up/a.jpg"
    MIMEType := "image/jpeg"
    DateTimeOriginal := some "2020:01:02 03:04:05"
    OffsetTime := some "+05:30" }

/-- C2 at a concrete input. -/
theorem claim_C2_interpretation_witness :
    (∀ q : OffProp, ∀ o, c2Bag.getOff q = some o → isExifTimezoneOffset o = true)
    ∧ (convertExifToFileData 0 [] "UTC" c2Bag).captureDateTime = specC2Instant 0 c2Bag := by
  have hoff : ∀ q : OffProp, ∀ o, c2Bag.getOff q = some o → isExifTimezoneOffset o = true := by
    intro q o h
    cases q <;> simp only [c2Bag, ExifData.getOff, Option.some.injEq] at h
    · subst h
      decide
    · exact absurd h (by simp)
    · exact absurd h (by simp)
  exact ⟨hoff, claim_C2_interpretation 0 [] "UTC" c2Bag hoff⟩

/-- Modelled from the spec (claim C3): the DateTime candidates consulted in the spec's
listed order, first present wins. -/
def specFirstDT (e : ExifData) : Option DTProp :=
  bif e.DateTimeCreated.isSome then some .dateTimeCreated
  else bif e.QuicktimeCreationDate.isSome then some .qtCreationDate
  else bif e.QuicktimeDateTimeOriginal.isSome then some .qtDateTimeOriginal
  else bif e.DateTimeOriginal.isSome then some .dateTimeOriginal
  else bif e.TrackCreateDate.isSome then some .trackCreateDate
  else bif e.MediaCreateDate.isSome then some .mediaCreateDate
  else bif e.CreateDate.isSome then some .createDate
  else none

/-- Modelled from the spec (claim C3): the Offset candidates in the spec's listed order. -/
def specFirstOff (e : ExifData) : Option OffProp :=
  bif e.OffsetTime.isSome then some .offsetTime
  else bif e.OffsetTimeOriginal.isSome then some .offsetTimeOriginal
  else bif e.OffsetTimeDigitized.isSome then some .offsetTimeDigitized
  else none

/-- Modelled from the spec (claim C3): the Title candidates in the spec's listed order. -/
def specFirstTitle (e : ExifData) : Option TitleProp :=
  bif e.Title.isSome then some .title
  else bif e.Description.isSome then some .description
  else bif e.XPTitle.isSome then some .xpTitle
  else bif e.ImageDescription.isSome then some .imageDescription
  else none

/-- Modelled from the spec (claim C3): the Keyword candidates in the spec's listed order. -/
def specFirstKw (e : ExifData) : Option KwProp :=
  bif e.Category.isSome then some .category
  else bif e.Keywords.isSome then some .keywords
  else bif e.Subject.isSome then some .subject
  else bif e.XPKeywords.isSome then some .xpKeywords
  else none

/-- C3: For every bag, each of the four semantic categories selects the first candidate
present in the bag in the spec's fixed priority order — the equalities hold with no
assumption on the bag, so they pin the entire candidate order, not just its head; and for
every bag holding both `DateTimeCreated` and `CreateDate`, `DateTimeCreated`'s value is
the one selected. -/
theorem claim_C3_priority_order (e : ExifData) :
    (ExifDateTimeProps.find? (fun p => (e.getDT p).isSome) = specFirstDT e
      ∧ ExifOffsetTimeProps.find? (fun p => (e.getOff p).isSome) = specFirstOff e
      ∧ ExifTitleProps.find? (fun p => (e.getTitle p).isSome) = specFirstTitle e
      ∧ ExifKeywordsProps.find? (fun p => e.kwPresent p) = specFirstKw e)
    ∧ (∀ v c, e.DateTimeCreated = some v → e.CreateDate = some c →
        (ExifDateTimeProps.find? (fun p => (e.getDT p).isSome)).bind (fun p => e.getDT p)
          = some v) := by
  refine ⟨⟨rfl, rfl, rfl, rfl⟩, ?_⟩
  intro v c hv hc
  simp [ExifDateTimeProps, List.find?, ExifData.getDT, hv]

/-- The concrete bag of the C3 witness: both `DateTimeCreated` and `CreateDate` present. -/
def c3Bag : ExifData :=
  { SourceFile := "/up/a.jpg"
    MIMEType := "image/jpeg"
    DateTimeCreated := some "2020:01:02 03:04:05+05:30"
    CreateDate := some "2000:01:01 00:00:00" }

/-- C3 at a concrete input. -/
theorem claim_C3_priority_order_witness :
    c3Bag.DateTimeCreated = some "2020:01:02 03:04:05+05:30"
    ∧ c3Bag.CreateDate = some "2000:01:01 00:00:00"
    ∧ (ExifDateTimeProps.find? (fun p => (c3Bag.getDT p).isSome)).bind (fun p => c3Bag.getDT p)
      = some "2020:01:02 03:04:05+05:30" :=
  ⟨rfl, rfl, (claim_C3_priority_order c3Bag).2 _ _ rfl rfl⟩

theorem find?_append_first {α} {p : α → Bool} {pre post : List α} {e : α}
    (hpre : ∀ x ∈ pre, p x = false) (he : p e = true) :
    (pre ++ e :: post).find? p = some e := by
  induction pre with
  | nil => simp [List.find?_cons, he]
  | cons x xs ih =>
    rw [List.cons_append, List.find?_cons, hpre x (List.mem_cons_self x xs)]
    exact ih (fun y hy => hpre y (List.mem_cons_of_mem x hy))

/-- C7: `getTimezoneFromOffset` returns (i) the process zone name for no offset; (ii) the
process zone when its table entry's standard offset equals the offset; (iii) otherwise the
first table entry (table order) whose standard offset equals the offset; (iv) otherwise the
process zone name again. -/
theorem claim_C7_timezone_heuristic (table : List TzEntry) (sysZone : String) :
    getTimezoneFromOffset table sysZone none = sysZone
    ∧ (∀ o : String,
        (table.find? (fun tz => tz.zone == sysZone)).map (fun tz => tz.std) = some o →
        getTimezoneFromOffset table sysZone (some o) = sysZone)
    ∧ (∀ (o : String) (pre post : List TzEntry) (e : TzEntry),
        (table.find? (fun tz => tz.zone == sysZone)).map (fun tz => tz.std) ≠ some o →
        table = pre ++ e :: post →
        (∀ x ∈ pre, x.std ≠ o) →
        e.std = o →
        getTimezoneFromOffset table sysZone (some o) = e.zone)
    ∧ (∀ o : String,
        (table.find? (fun tz => tz.zone == sysZone)).map (fun tz => tz.std) ≠ some o →
        (∀ x ∈ table, x.std ≠ o) →
        getTimezoneFromOffset table sysZone (some o) = sysZone) := by
  refine ⟨rfl, ?_, ?_, ?_⟩
  · intro o h
    unfold getTimezoneFromOffset
    dsimp only
    rw [if_neg (fun hc => hc h)]
  · intro o pre post e hlocal htable hpre he
    unfold getTimezoneFromOffset
    dsimp only
    have hfind : List.find? (fun tz => tz.std == o) (pre ++ e :: post) = some e :=
      find?_append_first (fun x hx => by simp [hpre x hx]) (by simp [he])
    rw [if_pos hlocal, htable, hfind]
  · intro o hlocal hnone
    unfold getTimezoneFromOffset
    dsimp only
    rw [if_pos hlocal, List.find?_eq_none.mpr (fun x hx => by simp [hnone x hx])]

/-- C7 at a concrete input: a three-entry table; the process zone's standard offset does
not match `+01:00`, so the first matching entry (`Europe/Berlin`) wins over the later
`Europe/Paris`. -/
theorem claim_C7_timezone_heuristic_witness :
    getTimezoneFromOffset
        [⟨"Asia/Kolkata", "+05:30"⟩, ⟨"Europe/Berlin", "+01:00"⟩, ⟨"Europe/Paris", "+01:00"⟩]
        "Asia/Kolkata" (some "+01:00")
      = "Europe/Berlin"
    ∧ getTimezoneFromOffset
        [⟨"Asia/Kolkata", "+05:30"⟩, ⟨"Europe/Berlin", "+01:00"⟩, ⟨"Europe/Paris", "+01:00"⟩]
        "Asia/Kolkata" none
      = "Asia/Kolkata" := by
  constructor
  · exact (claim_C7_timezone_heuristic
      [⟨"Asia/Kolkata", "+05:30"⟩, ⟨"Europe/Berlin", "+01:00"⟩, ⟨"Europe/Paris", "+01:00"⟩]
      "Asia/Kolkata").2.2.1 "+01:00"
      [⟨"Asia/Kolkata", "+05:30"⟩] [⟨"Europe/Paris", "+01:00"⟩] ⟨"Europe/Berlin", "+01:00"⟩
      (by decide) (by decide) (by decide) (by decide)
  · exact (claim_C7_timezone_heuristic
      [⟨"Asia/Kolkata", "+05:30"⟩, ⟨"Europe/Berlin", "+01:00"⟩, ⟨"Europe/Paris", "+01:00"⟩]
      "Asia/Kolkata").1


/-- C8 (amended): a DateTime candidate equal to the literal `0000:00:00 00:00:00` is
treated as absent by every candidate's validator, and `DateTimeCreated` also drops any
value merely *starting* with it; but for the two Quicktime fields a zero date **with** an
offset suffix passes validation (`!== '0000:00:00 00:00:00'` compares the whole string),
wins the priority search, and the subsequent parse fails, yielding `dateTime = null`
*without* falling through to the next candidate.  In particular a bag whose only candidate
is `DateTimeOriginal = '0000:00:00 00:00:00'` still validates and resolves to
`dateTime = null` rather than an extraction error. -/
theorem claim_C8_amended :
    (vDT zeroDateTime = none
      ∧ vDT "0000:00:00 00:00:00+05:30" = none
      ∧ vDTCreated zeroDateTime = none
      ∧ vDTCreated "0000:00:00 00:00:00+05:30" = none
      ∧ vDTOff zeroDateTime = none
      ∧ vDTOff "0000:00:00 00:00:00+05:30" = some "0000:00:00 00:00:00+05:30"
      ∧ (∀ (sysOff : Int) (off : Option String),
          parseExifDateTime sysOff "0000:00:00 00:00:00+05:30" off = none))
    ∧ (∀ (raw : RawExif) (sysOff : Int) (table : List TzEntry) (sysZone src mime : String),
        raw.SourceFile = some src → raw.MIMEType = some mime →
        (strStartsWith mime "image/" || strStartsWith mime "video/") = true →
        raw.DateTimeOriginal = some zeroDateTime →
        raw.QuicktimeCreationDate = none → raw.QuicktimeDateTimeOriginal = none →
        raw.DateTimeCreated = none → raw.TrackCreateDate = none →
        raw.MediaCreateDate = none → raw.CreateDate = none →
        (validateExif raw).isSome = true
        ∧ (validateExif raw).map (fun e => e.DateTimeOriginal) = some none
        ∧ (validateExif raw).map
            (fun e => (convertExifToFileData sysOff table sysZone e).captureDateTime)
          = some none) := by
  constructor
  · refine ⟨by decide, by decide, by decide, by decide, by decide, by decide, ?_⟩
    intro sysOff off
    have hf : matchDateTimeOptOffset ("0000:00:00 00:00:00+05:30").data
        = some ⟨0, 0, 0, 0, 0, 0, some 330⟩ := by decide
    unfold parseExifDateTime
    rw [hf]
    cases off with
    | none => rfl
    | some o =>
      dsimp only
      cases hmo : matchOffsetChars o.data with
      | none => rfl
      | some om => rfl
  · intro raw sysOff table sysZone src mime hsrc hmime hcond hdto hq1 hq2 hdtc htr hme hcr
    have hvz : vDT zeroDateTime = none := by decide
    unfold validateExif
    rw [hsrc, hmime]
    dsimp only
    rw [if_pos hcond]
    refine ⟨rfl, ?_, ?_⟩
    · simp [hdto, hvz]
    · simp [convert_captureDateTime, ExifDateTimeProps, List.find?, ExifData.getDT,
        hdto, hq1, hq2, hdtc, htr, hme, hcr, hvz]

/-- The concrete bag of the C8 witness: the only candidate is an all-zero
`DateTimeOriginal`. -/
def c8zBag : RawExif :=
  { SourceFile := some "/up/b.jpg"
    MIMEType := some "image/jpeg"
    DateTimeOriginal := some zeroDateTime }

/-- C8 (amended) at a concrete input. -/
theorem claim_C8_amended_witness :
    vDT zeroDateTime = none
    ∧ ((validateExif c8zBag).isSome = true
        ∧ (validateExif c8zBag).map (fun e => e.DateTimeOriginal) = some none
        ∧ (validateExif c8zBag).map
            (fun e => (convertExifToFileData 0 [] "UTC" e).captureDateTime) = some none) :=
  ⟨(claim_C8_amended.1).1,
   (claim_C8_amended.2) c8zBag 0 [] "UTC" "/up/b.jpg" "image/jpeg"
     rfl rfl (by decide) rfl rfl rfl rfl rfl rfl rfl⟩

/-- The concrete bag of the C8 counterexample: a video whose `Quicktime:CreationDate` is
the all-zero datetime with an offset suffix, alongside a perfectly valid `CreateDate`. -/
def c8Bag : RawExif :=
  { SourceFile := some "/up/a.mp4"
    MIMEType := some "video/mp4"
    QuicktimeCreationDate := some "0000:00:00 00:00:00+05:30"
    CreateDate := some "2020:01:02 03:04:05" }

/-- C8 counterexample: the zero-with-offset `Quicktime:CreationDate` survives validation
(it is *not* treated as absent), wins the priority search, and the resolver yields
`dateTime = null` — whereas the claim predicts falling through to `CreateDate`, which
parses (as UTC) to a real instant. -/
theorem claim_C8_counterexample :
    (validateExif c8Bag).map (fun e => e.QuicktimeCreationDate)
      = some (some "0000:00:00 00:00:00+05:30")
    ∧ (validateExif c8Bag).map
        (fun e => (convertExifToFileData 0 [] "UTC" e).captureDateTime) = some none
    ∧ parseExifDateTime 0 "2020:01:02 03:04:05" (some "+00:00")
        = some (daysFromCivil 2020 1 2 * 86400 + (3 * 3600 + 4 * 60 + 5))
    ∧ (none : Option Int) ≠ some (daysFromCivil 2020 1 2 * 86400 + (3 * 3600 + 4 * 60 + 5)) := by
  refine ⟨by decide, by decide, by decide, by decide⟩


/-! ## `+page.server.ts` — the commit orchestration (claims C4 and C9)

The state tracked is what the claims speak about: queue rows, inserted LibraryEntry rows,
and files copied into the library tree (plus, for cleanup, each queued file's three
artifacts).  The external write-back tool, the per-step database transactions and the
filesystem are represented by explicit success/failure oracles; a failed transaction rolls
its row changes back.  Disk writes that no claim mentions (thumbnails of deleted files,
the metadata.json, Exif bytes written into source files) are outside the state. -/

/-- A `queued_files` row joined with its keywords (`database.queuedFiles.get`). -/
structure QueueRow where
  id : Nat
  name : String
  path : String
  thumbnailPath : String
  mimeType : String
  captureDateTime : Option Int
  timezone : Option String
  title : Option String
  latitude : Option ℚ
  longitude : Option ℚ
  altitude : Option ℚ
  keywordIds : List Nat
  keywords : List String
deriving DecidableEq

/-- One entry of `fileChanges` (`QueuedFileUpdateSchema` output). -/
structure ModifiedFile where
  id : Nat
  captureDateTime : Option Int
  timezone : Option String
  title : Option String
  latitude : Option ℚ
  longitude : Option ℚ
  altitude : Option ℚ
  keywordIds : List Nat
deriving DecidableEq

/-- Keyword names of a row from its keyword ids (the SQL join). -/
def lookupKwNames (tbl : List KeywordRow) (ids : List Nat) : List String :=
  ids.filterMap (fun i => (tbl.find? (fun k => k.id == i)).map (fun k => k.keyword))

/-- `database.queuedFiles.update(fileChanges)`: set the submitted metadata on each matching
row and replace its keyword links. -/
def applyChanges (tbl : List KeywordRow) (changes : List ModifiedFile) (rows : List QueueRow) :
    List QueueRow :=
  rows.map (fun r =>
    match changes.find? (fun c => c.id == r.id) with
    | none => r
    | some c =>
      { r with
        captureDateTime := c.captureDateTime
        timezone := c.timezone
        title := c.title
        latitude := c.latitude
        longitude := c.longitude
        altitude := c.altitude
        keywordIds := c.keywordIds
        keywords := lookupKwNames tbl c.keywordIds })

/-- `ORDER BY capture_date_time` comparison (SQL ascending, NULLs first). -/
def captureLe (a b : Option Int) : Bool :=
  match a, b with
  | none, _ => true
  | some _, none => false
  | some x, some y => x ≤ y

/-- Stable insert for `sortByCapture`. -/
def insertByCapture (r : QueueRow) : List QueueRow → List QueueRow
  | [] => [r]
  | x :: xs =>
    if captureLe x.captureDateTime r.captureDateTime then x :: insertByCapture r xs
    else r :: x :: xs

/-- The queue read back in capture order (`database.queuedFiles.get`). -/
def sortByCapture : List QueueRow → List QueueRow
  | [] => []
  | x :: xs => insertByCapture x (sortByCapture xs)

/-- The planner's view of a committable row. -/
def queueToRemapFile (r : QueueRow) : PathRemapFile :=
  ⟨r.id, r.path, r.captureDateTime.getD 0, r.mimeType, r.keywords⟩

inductive CommitResult | success | failure
deriving DecidableEq

/-- The state a commit request manipulates. -/
structure CommitState where
  queued : List QueueRow
  library : List (Nat × String)
  copied : List PathRemap
deriving DecidableEq

/-- `actions.commitFiles` of `+page.server.ts` (with `moveQueuedFilesToLibrary` inlined in
the success path): delete the explicitly listed queue entries, apply the submitted edits,
run the write-back tool over the queue, and only then plan, copy, insert the LibraryEntry
rows, and clean up the committed queue rows (the cleanup's own result is ignored).
`deleteOk` / `writeBackOk` / `cleanupOk` are the oracles for the three fallible steps; a
failed database transaction leaves its rows unchanged. -/
def commitFiles (sysOff : Int) (root : String) (tbl : List KeywordRow)
    (changes : List ModifiedFile) (deleted : List Nat)
    (deleteOk writeBackOk cleanupOk : Bool) (st : CommitState) : CommitResult × CommitState :=
  if ¬ deleteOk then (.failure, st)
  else
    let st1 : CommitState := { st with queued := st.queued.filter (fun r => ¬ deleted.contains r.id) }
    let st2 : CommitState := { st1 with queued := applyChanges tbl changes st1.queued }
    let committable := sortByCapture st2.queued
    if ¬ writeBackOk then (.failure, st2)
    else
      let folderLabels := getFolderLabels tbl (committable.flatMap (fun f => f.keywordIds))
      let remaps := remapFilePaths sysOff (committable.map queueToRemapFile) root folderLabels
      let st3 : CommitState := { st2 with copied := st2.copied ++ remaps }
      let st4 : CommitState :=
        { st3 with library := st3.library ++ remaps.map (fun r => (r.fileId, r.destinationPath)) }
      let st5 : CommitState :=
        if cleanupOk then
          { st4 with queued := st4.queued.filter (fun r => ¬ (remaps.map PathRemap.fileId).contains r.id) }
        else st4
      (.success, st5)

/-- C4 (amended): when the write-back tool reports failure (and the preceding deletion
step succeeded), the commit reports failure, zero files have been copied to the library and
zero LibraryEntry rows inserted, and no queue entry beyond those explicitly listed for
deletion is removed — but the submitted metadata edits have already been applied to the
queue rows (and the listed deletions performed) before the write-back ran. -/
theorem claim_C4_writeback_abort (sysOff : Int) (root : String) (tbl : List KeywordRow)
    (changes : List ModifiedFile) (deleted : List Nat) (cleanupOk : Bool) (st : CommitState) :
    (commitFiles sysOff root tbl changes deleted true false cleanupOk st).1 = .failure
    ∧ (commitFiles sysOff root tbl changes deleted true false cleanupOk st).2.copied = st.copied
    ∧ (commitFiles sysOff root tbl changes deleted true false cleanupOk st).2.library = st.library
    ∧ (commitFiles sysOff root tbl changes deleted true false cleanupOk st).2.queued
        = applyChanges tbl changes (st.queued.filter (fun r => ¬ deleted.contains r.id))
    ∧ (∀ r ∈ st.queued, deleted.contains r.id = false →
        ∃ r2 ∈ (commitFiles sysOff root tbl changes deleted true false cleanupOk st).2.queued,
          r2.id = r.id) := by
  refine ⟨rfl, rfl, rfl, rfl, ?_⟩
  intro r hr hdel
  have hrf : r ∈ st.queued.filter (fun r => ¬ deleted.contains r.id) :=
    List.mem_filter.mpr ⟨hr, by simpa using hdel⟩
  show ∃ r2 ∈ applyChanges tbl changes (st.queued.filter (fun r => ¬ deleted.contains r.id)), _
  unfold applyChanges
  cases hc : changes.find? (fun c => c.id == r.id) with
  | none =>
    refine ⟨r, List.mem_map.mpr ⟨r, hrf, ?_⟩, rfl⟩
    rw [hc]
  | some c =>
    refine ⟨_, List.mem_map.mpr ⟨r, hrf, rfl⟩, ?_⟩
    rw [hc]

/-- The queue row of the C4 scenario. -/
def c4Row : QueueRow :=
  { id := 1, name := "a.jpg", path := "/up/a.jpg", thumbnailPath := "/up/thumb/a.jpg",
    mimeType := "image/jpeg", captureDateTime := none, timezone := none, title := none,
    latitude := none, longitude := none, altitude := none, keywordIds := [], keywords := [] }

/-- The metadata edit of the C4 scenario. -/
def c4Change : ModifiedFile :=
  { id := 1, captureDateTime := some 0, timezone := some "UTC", title := some "t",
    latitude := none, longitude := none, altitude := none, keywordIds := [] }

/-- C4 (amended) at a concrete input. -/
theorem claim_C4_writeback_abort_witness :
    (commitFiles 0 "lib" [] [c4Change] [] true false true ⟨[c4Row], [], []⟩).1 = .failure
    ∧ (commitFiles 0 "lib" [] [c4Change] [] true false true ⟨[c4Row], [], []⟩).2.copied = []
    ∧ (commitFiles 0 "lib" [] [c4Change] [] true false true ⟨[c4Row], [], []⟩).2.library = [] :=
  ⟨(claim_C4_writeback_abort 0 "lib" [] [c4Change] [] true ⟨[c4Row], [], []⟩).1,
   (claim_C4_writeback_abort 0 "lib" [] [c4Change] [] true ⟨[c4Row], [], []⟩).2.1,
   (claim_C4_writeback_abort 0 "lib" [] [c4Change] [] true ⟨[c4Row], [], []⟩).2.2.1⟩

/-- C4 counterexample: the same scenario refutes "the queue entries remain unchanged" —
the pre-write-back update step has already persisted the submitted title/date edits when
the write-back failure aborts the commit. -/
theorem claim_C4_counterexample :
    (commitFiles 0 "lib" [] [c4Change] [] true false true ⟨[c4Row], [], []⟩).1 = .failure
    ∧ (commitFiles 0 "lib" [] [c4Change] [] true false true ⟨[c4Row], [], []⟩).2.queued
        ≠ [c4Row] := by
  refine ⟨by decide, by decide⟩


/-! ### Cleanup of committed queue entries (claim C9)

Two cleanup implementations exist.  `deleteQueuedFiles` of `file-manager.ts` handles each
file in its own try/catch around its own database transaction: delete the row, then remove
the source file and the thumbnail from disk; a throw rolls the row deletion back but the
disk removals already performed stay.  `database.queuedFiles.delete` of `db/index.ts` runs
ONE transaction for the whole batch: select the paths, delete all rows, then unlink every
path (ENOENT swallowed per path, any other error rethrown — which rolls back every row
deletion while the completed unlinks persist).  A path is modelled as either present as a
regular file or absent (where `stat` throws). -/

/-- The artifacts of one queued file: its `queued_files` row, its uploaded source file and
its generated thumbnail. -/
structure CleanupState where
  rowPresent : Bool
  sourceIsFile : Bool
  thumbIsFile : Bool
deriving DecidableEq

/-- Success/failure of the two `fs.rm` calls for one file. -/
structure CleanupOracle where
  rmSourceOk : Bool
  rmThumbOk : Bool
deriving DecidableEq

/-- One file's branch of `deleteQueuedFiles`: inside a transaction, delete the row,
`stat`+`rm` the source, then `stat`+`rm` the thumbnail; a throw anywhere rolls back the
row deletion only.  Returns the new artifact state and whether this file succeeded. -/
def deleteOneQueuedFile (st : CleanupState) (o : CleanupOracle) : CleanupState × Bool :=
  if st.sourceIsFile then
    if o.rmSourceOk then
      if st.thumbIsFile then
        if o.rmThumbOk then
          ({ rowPresent := false, sourceIsFile := false, thumbIsFile := false }, true)
        else ({ st with sourceIsFile := false }, false)
      else ({ st with sourceIsFile := false }, false)
    else (st, false)
  else (st, false)

/-- `deleteQueuedFiles` of `file-manager.ts`: process the named files independently
(`Promise.all` over per-file try/catch); the boolean is true iff every file succeeded. -/
def deleteQueuedFiles (ids : List Nat) (oracle : Nat → CleanupOracle)
    (art : List (Nat × CleanupState)) : List (Nat × CleanupState) × Bool :=
  (art.map (fun a =>
    if ids.contains a.1 then (a.1, (deleteOneQueuedFile a.2 (oracle a.1)).1) else a),
   (art.filter (fun a => ids.contains a.1)).all
     (fun a => (deleteOneQueuedFile a.2 (oracle a.1)).2))

/-- Outcome of one `fs.unlink`. -/
inductive UnlinkResult
  | ok
  | noent
  | err
deriving DecidableEq, BEq

/-- `deleteFilesFromDisk`: unlink every path (all attempts run); a per-path ENOENT is
swallowed, any other error is rethrown.  Returns the surviving disk contents and whether
no unlink threw. -/
def deleteFilesFromDisk (u : String → UnlinkResult) (paths : List String)
    (disk : List String) : List String × Bool :=
  (disk.filter (fun p => !(paths.contains p && (u p == UnlinkResult.ok))),
   paths.all (fun p => !(u p == UnlinkResult.err)))

/-- `database.queuedFiles.delete` of `db/index.ts`: one transaction over the whole batch —
select the victims' paths, delete all their rows, then `deleteFilesFromDisk`; if the disk
step throws, the transaction rolls back every row deletion (the completed unlinks stay). -/
def queuedFilesDelete (u : String → UnlinkResult) (fileIds : List Nat)
    (rows : List QueueRow) (disk : List String) : (List QueueRow × List String) × Bool :=
  match deleteFilesFromDisk u
      ((rows.filter (fun r => fileIds.contains r.id)).flatMap
        (fun r => [r.path, r.thumbnailPath])) disk with
  | (disk2, true) => ((rows.filter (fun r => !fileIds.contains r.id), disk2), true)
  | (disk2, false) => ((rows, disk2), false)

/-- State touched by `moveQueuedFilesToLibrary`: per-file artifacts, inserted library rows
(file id with its destination path, `none` for the unchecked missing-remap cast), and the
files copied into the library tree. -/
structure FsState where
  art : List (Nat × CleanupState)
  library : List (Nat × Option String)
  copied : List PathRemap
deriving DecidableEq

/-- The planner output for the queued batch (folder labels from the batch's keyword ids). -/
def queuedRemaps (sysOff : Int) (root : String) (tbl : List KeywordRow)
    (files : List QueueRow) : List PathRemap :=
  remapFilePaths sysOff (files.map queueToRemapFile) root
    (getFolderLabels tbl (files.flatMap (fun f => f.keywordIds)))

/-- The LibraryEntry rows built from the batch (`remappedFilePaths.find` per file). -/
def newLibraryRows (files : List QueueRow) (remaps : List PathRemap) :
    List (Nat × Option String) :=
  files.map (fun f =>
    (f.id, (remaps.find? (fun r => r.fileId == f.id)).map PathRemap.destinationPath))

/-- `moveQueuedFilesToLibrary` of `file-manager.ts`: plan, copy, insert the LibraryEntry
rows, then clean the committed queue entries up with `deleteQueuedFiles`, whose boolean
result is ignored. -/
def moveQueuedFilesToLibrary (sysOff : Int) (root : String) (tbl : List KeywordRow)
    (files : List QueueRow) (oracle : Nat → CleanupOracle) (st : FsState) : FsState × Bool :=
  let remaps := queuedRemaps sysOff root tbl files
  let st1 : FsState := { st with copied := st.copied ++ remaps }
  let st2 : FsState := { st1 with library := st1.library ++ newLibraryRows files remaps }
  let st3 : FsState :=
    { st2 with art := (deleteQueuedFiles (remaps.map PathRemap.fileId) oracle st2.art).1 }
  (st3, true)

/-- C9 (amended): the `file-manager.ts` cleanup is per-file independent — each artifact
entry is transformed by a function of that entry and its own oracle alone, one file's
rollback touches only its own row, a fully successful file loses row, source and
thumbnail — and no cleanup outcome changes the copied files or the inserted library rows,
nor the reported success of the surrounding commit.  The `database.queuedFiles.delete`
cleanup, by contrast, attempts disk unlinks independently but shares one transaction for
all row deletions: whenever its disk step throws, every queue row of the batch survives. -/
theorem claim_C9_amended (sysOff : Int) (root : String) (tbl : List KeywordRow)
    (files : List QueueRow) (oracle : Nat → CleanupOracle) (st : FsState) :
    (moveQueuedFilesToLibrary sysOff root tbl files oracle st).2 = true
    ∧ (moveQueuedFilesToLibrary sysOff root tbl files oracle st).1.copied
        = st.copied ++ queuedRemaps sysOff root tbl files
    ∧ (moveQueuedFilesToLibrary sysOff root tbl files oracle st).1.library
        = st.library ++ newLibraryRows files (queuedRemaps sysOff root tbl files)
    ∧ (moveQueuedFilesToLibrary sysOff root tbl files oracle st).1.art
        = st.art.map (fun a =>
            if ((queuedRemaps sysOff root tbl files).map PathRemap.fileId).contains a.1 then
              (a.1, (deleteOneQueuedFile a.2 (oracle a.1)).1)
            else a)
    ∧ (∀ s o, s.sourceIsFile = true → o.rmSourceOk = false →
        deleteOneQueuedFile s o = (s, false))
    ∧ deleteOneQueuedFile ⟨true, true, true⟩ ⟨true, true⟩ = (⟨false, false, false⟩, true)
    ∧ (∀ (u : String → UnlinkResult) ids rows disk,
        (queuedFilesDelete u ids rows disk).2 = false →
        (queuedFilesDelete u ids rows disk).1.1 = rows)
    ∧ (∀ (u : String → UnlinkResult) ids rows disk,
        (queuedFilesDelete u ids rows disk).1.2
          = disk.filter (fun p =>
              !(((rows.filter (fun r => ids.contains r.id)).flatMap
                  (fun r => [r.path, r.thumbnailPath])).contains p
                && (u p == UnlinkResult.ok))))
    ∧ (∀ (changes : List ModifiedFile) (deleted : List Nat) (cleanupOk : Bool)
        (st2 : CommitState),
        (commitFiles sysOff root tbl changes deleted true true cleanupOk st2).1 = .success) := by
  refine ⟨rfl, rfl, rfl, rfl, ?_, by decide, ?_, ?_, ?_⟩
  · intro s o h1 h2
    simp [deleteOneQueuedFile, h1, h2]
  · intro u ids rows disk h
    unfold queuedFilesDelete at h ⊢
    generalize hg : deleteFilesFromDisk u
      ((rows.filter (fun r => ids.contains r.id)).flatMap
        (fun r => [r.path, r.thumbnailPath])) disk = x at h ⊢
    obtain ⟨d2, b⟩ := x
    cases b
    · rfl
    · exact Bool.noConfusion h
  · intro u ids rows disk
    unfold queuedFilesDelete
    generalize hg : deleteFilesFromDisk u
      ((rows.filter (fun r => ids.contains r.id)).flatMap
        (fun r => [r.path, r.thumbnailPath])) disk = x
    obtain ⟨d2, b⟩ := x
    unfold deleteFilesFromDisk at hg
    have hd2 := (congrArg Prod.fst hg).symm
    cases b <;> exact hd2
  · intro changes deleted cleanupOk st2
    rfl

/-- C9 (amended) at a concrete input. -/
theorem claim_C9_amended_witness :
    (moveQueuedFilesToLibrary 0 "lib" [] [] (fun _ => ⟨true, true⟩) ⟨[], [], []⟩).2 = true :=
  (claim_C9_amended 0 "lib" [] [] (fun _ => ⟨true, true⟩) ⟨[], [], []⟩).1

/-- First queued file of the C9 scenario (its source unlink fails with a non-ENOENT
error). -/
def c9Row1 : QueueRow :=
  { id := 1, name := "a", path := "/q/a", thumbnailPath := "/q/ta", mimeType := "image/jpeg",
    captureDateTime := some 0, timezone := none, title := none, latitude := none,
    longitude := none, altitude := none, keywordIds := [], keywords := [] }

/-- Second queued file of the C9 scenario (all of its artifacts delete fine). -/
def c9Row2 : QueueRow :=
  { id := 2, name := "b", path := "/q/b", thumbnailPath := "/q/tb", mimeType := "image/jpeg",
    captureDateTime := some 0, timezone := none, title := none, latitude := none,
    longitude := none, altitude := none, keywordIds := [], keywords := [] }

/-- Unlink outcomes of the C9 scenario: only file 1's source fails (non-ENOENT). -/
def c9Unlink : String → UnlinkResult :=
  fun p => if p == "/q/a" then .err else .ok

/-- Disk contents of the C9 scenario. -/
def c9Disk : List String := ["/q/a", "/q/ta", "/q/b", "/q/tb"]

/-- C9 counterexample: under the `database.queuedFiles.delete` cleanup (the variant the
`+page.server.ts` commit of the other snapshot uses), a failure deleting file 1's source
DOES prevent deletion of file 2's queue row — file 2's source and thumbnail are unlinked,
yet the batch-wide transaction rollback restores both queue rows — refuting the claimed
per-file independence. -/
theorem claim_C9_counterexample :
    (queuedFilesDelete c9Unlink [1, 2] [c9Row1, c9Row2] c9Disk).1.2 = ["/q/a"]
    ∧ (queuedFilesDelete c9Unlink [1, 2] [c9Row1, c9Row2] c9Disk).1.1 = [c9Row1, c9Row2]
    ∧ c9Row2 ∈ (queuedFilesDelete c9Unlink [1, 2] [c9Row1, c9Row2] c9Disk).1.1 := by
  refine ⟨by decide, by decide, by decide⟩

end SnapSort
